import Mathlib

/-!
Verification of the recurring-payment and credit-card billing-cycle engine of
the `organizador-financeiro` backend (files
`app/services/payment_service.py` and `app/services/credit_card_service.py`).

The Python services are shallowly embedded: calendar dates become a `Date`
structure of integers, SQLAlchemy rows become Lean structures, the database
session becomes an explicit `DB` value threaded through the operations, and
exact `Decimal` money amounts become `Int` (cents).  Timestamps
(`created_at`/`updated_at`) are server-managed noise and are not modelled.
-/

namespace OrgFin

/-- A calendar date (`datetime.date`): year, month (1–12), day (1–31).
Components are unbounded integers; `Valid` below carves out real dates. -/
structure Date where
  year : Int
  month : Int
  day : Int
deriving DecidableEq, Repr

/-- Python `date` ordering is lexicographic on (year, month, day). -/
def Date.le (a b : Date) : Prop :=
  a.year < b.year ∨ (a.year = b.year ∧
    (a.month < b.month ∨ (a.month = b.month ∧ a.day ≤ b.day)))

/-- Strict lexicographic order on dates. -/
def Date.lt (a b : Date) : Prop :=
  a.year < b.year ∨ (a.year = b.year ∧
    (a.month < b.month ∨ (a.month = b.month ∧ a.day < b.day)))

instance : LE Date := ⟨Date.le⟩

instance : LT Date := ⟨Date.lt⟩

instance (a b : Date) : Decidable (a ≤ b) := by
  unfold LE.le instLEDate Date.le; infer_instance

instance (a b : Date) : Decidable (a < b) := by
  unfold LT.lt instLTDate Date.lt; infer_instance

/-- Gregorian leap-year rule, as used by `calendar.monthrange`. -/
def isLeap (y : Int) : Bool :=
  (y % 4 == 0 && y % 100 != 0) || (y % 400 == 0)

/-- `calendar.monthrange(year, month)[1]`: the number of days in a month. -/
def daysInMonth (year month : Int) : Int :=
  if month = 2 then (if isLeap year then 29 else 28)
  else if month = 4 ∨ month = 6 ∨ month = 9 ∨ month = 11 then 30
  else 31

/-- A structurally real calendar date. -/
def Date.Valid (d : Date) : Prop :=
  1 ≤ d.month ∧ d.month ≤ 12 ∧ 1 ≤ d.day ∧ d.day ≤ daysInMonth d.year d.month

instance (d : Date) : Decidable d.Valid := by
  unfold Date.Valid; infer_instance

/-- The day after `d` (`d + timedelta(days=1)`), rolling over month/year ends. -/
def Date.nextDay (d : Date) : Date :=
  if d.day < daysInMonth d.year d.month then ⟨d.year, d.month, d.day + 1⟩
  else if d.month < 12 then ⟨d.year, d.month + 1, 1⟩
  else ⟨d.year + 1, 1, 1⟩

/-- `d + timedelta(days=n)` for a non-negative number of days. -/
def Date.addDays : Date → Nat → Date
  | d, 0 => d
  | d, n + 1 => (d.nextDay).addDays n

/-- Python `min` on two dates (returns the first argument on ties). -/
def Date.min (a b : Date) : Date := if a ≤ b then a else b

/-- The two `while` loops of `CreditCardService._shift_month`, with an
explicit iteration bound (each iteration moves the month 12 closer to the
1..12 window, so the bound below always suffices and the function computes
exactly the loops' result). -/
def normMonthGo : Nat → Int → Int → Int × Int
  | 0, y, m => (y, m)
  | n + 1, y, m =>
    if m < 1 then normMonthGo n (y - 1) (m + 12)
    else if m > 12 then normMonthGo n (y + 1) (m - 12)
    else (y, m)

/-- Normalizes a (year, month) pair so the month lands in 1..12. -/
def normMonth (y m : Int) : Int × Int :=
  normMonthGo ((1 - m).toNat + (m - 12).toNat) y m

/-- `CreditCardService._shift_month(year, month, delta)`. -/
def shift_month (year month delta : Int) : Int × Int :=
  normMonth year (month + delta)

/-- `CreditCardService._build_date_with_day`: clamp the requested day to the
length of the month (`safe_day = min(day, last_day)`). -/
def build_date_with_day (year month day : Int) : Date :=
  ⟨year, month, min day (daysInMonth year month)⟩

/-- `dateutil.relativedelta(months=k)` for `k ≥ 0`: shift the month with
carry into the year and clamp the day-of-month to the target month length. -/
def relDeltaMonths (d : Date) (k : Int) : Date :=
  let ym := normMonth d.year (d.month + k)
  ⟨ym.1, ym.2, min d.day (daysInMonth ym.1 ym.2)⟩

/-- `dateutil.relativedelta(years=1)`: add one year, clamping Feb 29. -/
def relDeltaYears1 (d : Date) : Date :=
  ⟨d.year + 1, d.month, min d.day (daysInMonth (d.year + 1) d.month)⟩

/-- Monotone measure used for termination arguments: strictly increasing along
every calendar step on valid dates. -/
def Date.mu (d : Date) : Int := 372 * d.year + 31 * d.month + d.day

/-! ### Data model (`app/models`)

Rows as plain records.  String-backed enum columns keep their Python string
values; nullable columns become `Option`. -/

/-- `PaymentType` (str enum). -/
inductive PaymentType
  | one_time
  | recurring
deriving DecidableEq, Repr

/-- `PaymentStatus` (str enum). -/
inductive PaymentStatus
  | pending
  | scheduled
  | processed
  | failed
  | cancelled
  | reconciled
deriving DecidableEq, Repr

/-- The `payments` table.  `frequency` is stored as its raw string column
value (the `PaymentFrequency` str enum; `none` when NULL), which is what
the service code compares against. -/
structure Payment where
  id : Nat
  user_id : Nat
  payment_type : PaymentType
  description : String
  amount : Int
  currency : String
  category : Option String
  from_account_type : Option String
  from_account_id : Option Nat
  to_account_type : Option String
  to_account_id : Option Nat
  due_date : Option Date
  frequency : Option String
  start_date : Option Date
  end_date : Option Date
  next_due_date : Option Date
  status : PaymentStatus
  processed_date : Option Date
  reconciled_date : Option Date
  notes : Option String
  is_active : Bool
deriving DecidableEq, Repr

/-- The `payment_occurrences` table (columns the engine reads/writes). -/
structure PaymentOccurrence where
  id : Nat
  payment_id : Nat
  scheduled_date : Date
  due_date : Option Date
  amount : Int
  status : PaymentStatus
deriving DecidableEq, Repr

/-- The `recurring_payment_overrides` table. -/
structure RecurringPaymentOverride where
  id : Nat
  payment_id : Nat
  override_type : String
  target_date : Option Date
  effective_date : Date
  end_date : Option Date
  occurrence_count : Option Int
  new_amount : Option Int
  new_due_date : Option Date
  is_active : Bool
deriving DecidableEq, Repr

/-- The `credit_cards` table (columns the engine reads). -/
structure CreditCard where
  id : Nat
  user_id : Nat
  name : String
  currency : String
  invoice_close_day : Int
  payment_due_day : Nat
  default_payment_account_id : Option Nat
  is_active : Bool
deriving DecidableEq, Repr

/-- The `bank_accounts` table (columns the engine reads); `account_type` is
the `AccountType` str enum value ("checking", "savings", ...). -/
structure BankAccount where
  id : Nat
  user_id : Nat
  account_type : String
  is_active : Bool
deriving DecidableEq, Repr

/-- The database session: one user's rows plus autoincrement counters for
the two tables the engine inserts into. -/
structure DB where
  payments : List Payment
  occurrences : List PaymentOccurrence
  overrides : List RecurringPaymentOverride
  cards : List CreditCard
  bank_accounts : List BankAccount
  next_payment_id : Nat
  next_occurrence_id : Nat
deriving DecidableEq, Repr

/-- Python truthiness of an optional number: `None` and `0` are falsy
(`Decimal("0")` is falsy too). -/
def truthyNum (a : Option Int) : Prop := a.getD 0 ≠ 0

instance (a : Option Int) : Decidable (truthyNum a) := by
  unfold truthyNum; infer_instance

/-! ### Payment service (`app/services/payment_service.py`) -/

/-- `PaymentService._calculate_next_due_date`.  The comparisons are against
the str-enum members; the final fall-through returns the input date. -/
def calculate_next_due_date (start_date : Date) (frequency : Option String) : Date :=
  if frequency = some "daily" then start_date.addDays 1
  else if frequency = some "weekly" then start_date.addDays 7
  else if frequency = some "monthly" then relDeltaMonths start_date 1
  else if frequency = some "quarterly" then relDeltaMonths start_date 3
  else if frequency = some "yearly" then relDeltaYears1 start_date
  else start_date

/-- A frequency string the dispatch in `_calculate_next_due_date` recognizes. -/
def RecognizedFreq (f : String) : Prop :=
  f = "daily" ∨ f = "weekly" ∨ f = "monthly" ∨ f = "quarterly" ∨ f = "yearly"

instance (f : String) : Decidable (RecognizedFreq f) := by
  unfold RecognizedFreq; infer_instance

/-- `PaymentService._is_date_affected`. -/
def is_date_affected (target_date : Date) (o : RecurringPaymentOverride) : Bool :=
  if target_date < o.effective_date then false
  else if (match o.end_date with
           | some e => decide (e < target_date)
           | none => false) then false
  else match o.target_date with
    | some t => decide (target_date = t)
    | none => true

/-- The `for override in overrides` body of `generate_recurring_occurrences`:
iterate the overrides in order; a matching `skip` breaks out, a matching
`change_amount` with a truthy `new_amount` reassigns the running amount,
`change_date` and anything else fall through.  Returns (should_skip, amount). -/
def apply_overrides (current_date : Date) :
    List RecurringPaymentOverride → Int → Bool × Int
  | [], amount => (false, amount)
  | o :: rest, amount =>
    if is_date_affected current_date o then
      if o.override_type = "skip" then (true, amount)
      else if o.override_type = "change_amount" ∧ truthyNum o.new_amount then
        apply_overrides current_date rest (o.new_amount.getD 0)
      else apply_overrides current_date rest amount
    else apply_overrides current_date rest amount

/-- The occurrence row created by one loop iteration of
`generate_recurring_occurrences`: scheduled and due on the current date,
the override-resolved amount, status `scheduled`. -/
def newOcc (pid nid : Nat) (current : Date) (amt : Int) : PaymentOccurrence :=
  { id := nid
    payment_id := pid
    scheduled_date := current
    due_date := some current
    amount := amt
    status := PaymentStatus.scheduled }

/-- The `while current_date <= min(up_to_date, end_date)` loop of
`generate_recurring_occurrences`, with explicit fuel for the shallow
embedding.  Returns the created occurrences in creation order, the next
occurrence id, and whether the loop condition became false (i.e. the
Python loop would have finished) rather than the fuel running out. -/
def genLoop (pid : Nat) (base : Int) (freq : Option String)
    (ovs : List RecurringPaymentOverride) (existing : List Date) (bound : Date) :
    Nat → Date → List PaymentOccurrence → Nat → List PaymentOccurrence × Nat × Bool
  | 0, current, acc, nid => (acc, nid, decide (¬ current ≤ bound))
  | fuel + 1, current, acc, nid =>
    if current ≤ bound then
      if current ∈ existing then
        genLoop pid base freq ovs existing bound fuel
          (calculate_next_due_date current freq) acc nid
      else if (apply_overrides current ovs base).1 then
        genLoop pid base freq ovs existing bound fuel
          (calculate_next_due_date current freq) acc nid
      else
        genLoop pid base freq ovs existing bound fuel
          (calculate_next_due_date current freq)
          (acc ++ [newOcc pid nid current (apply_overrides current ovs base).2]) (nid + 1)
    else (acc, nid, true)

/-- The existing-occurrence dates loaded by `generate_recurring_occurrences`
(a set in the source; list membership here). -/
def gen_existing (db : DB) (pid : Nat) : List Date :=
  (db.occurrences.filter (fun o => decide (o.payment_id = pid))).map
    (fun o => o.scheduled_date)

/-- The active overrides loaded by `generate_recurring_occurrences`. -/
def gen_overrides (db : DB) (pid : Nat) : List RecurringPaymentOverride :=
  db.overrides.filter (fun o => decide (o.payment_id = pid ∧ o.is_active = true))

/-- The loop bound `min(up_to_date, end_date)` where `end_date` falls back
to `up_to_date` when the payment has none. -/
def gen_bound (p : Payment) (up : Date) : Date :=
  Date.min up (match p.end_date with
    | some e => e
    | none => up)

/-- The whole generation loop run for a found payment `p` from `start`. -/
def gen_run (db : DB) (pid : Nat) (p : Payment) (start : Date)
    (up_to_date : Option Date) (today : Date) (fuel : Nat) :
    List PaymentOccurrence × Nat × Bool :=
  genLoop pid p.amount p.frequency (gen_overrides db pid) (gen_existing db pid)
    (gen_bound p (up_to_date.getD (today.addDays 365))) fuel start []
    db.next_occurrence_id

/-- `PaymentService.generate_recurring_occurrences`.  `today` stands for
`date.today()` (only used for the default one-year horizon); `fuel` bounds
the while loop.  Returns `none` when the Python code would crash on a
recurring payment with a NULL `start_date`; otherwise the created
occurrences, the new database state, and the loop-completion flag. -/
def generate_recurring_occurrences (db : DB) (payment_id user_id : Nat)
    (up_to_date : Option Date) (today : Date) (fuel : Nat) :
    Option (List PaymentOccurrence × DB × Bool) :=
  match db.payments.find? (fun p => decide (p.id = payment_id ∧ p.user_id = user_id ∧
      p.payment_type = PaymentType.recurring)) with
  | none => some ([], db, true)
  | some p =>
    if p.is_active = false then some ([], db, true)
    else match p.start_date with
      | none => none
      | some start =>
        let r := gen_run db payment_id p start up_to_date today fuel
        some (r.1,
          { db with
              occurrences := (db.occurrences ++ r.1)
              next_occurrence_id := r.2.1 },
          r.2.2)

/-- `PaymentFrequency`: the closed enum pydantic validates
`RecurringPaymentCreate.frequency` against. -/
inductive PaymentFrequency
  | daily
  | weekly
  | monthly
  | quarterly
  | yearly
deriving DecidableEq, Repr

/-- The stored string value of a `PaymentFrequency` member. -/
def PaymentFrequency.value : PaymentFrequency → String
  | .daily => "daily"
  | .weekly => "weekly"
  | .monthly => "monthly"
  | .quarterly => "quarterly"
  | .yearly => "yearly"

/-- The validated `RecurringPaymentCreate` payload. -/
structure RecurringPaymentCreate where
  description : String
  amount : Int
  currency : String
  category : Option String
  from_account_type : Option String
  from_account_id : Option Nat
  to_account_type : Option String
  to_account_id : Option Nat
  notes : Option String
  frequency : PaymentFrequency
  start_date : Date
  end_date : Option Date
deriving DecidableEq, Repr

/-- `PaymentService.create_recurring_payment`: insert the payment (status
`pending`, `next_due_date` one step past `start_date`) and its initial
occurrence at `start_date` (status `scheduled`). -/
def create_recurring_payment (db : DB) (user_id : Nat) (d : RecurringPaymentCreate) :
    Payment × DB :=
  let next_due := calculate_next_due_date d.start_date (some d.frequency.value)
  let p : Payment :=
    { id := db.next_payment_id
      user_id := user_id
      payment_type := PaymentType.recurring
      description := d.description
      amount := d.amount
      currency := d.currency
      category := d.category
      from_account_type := d.from_account_type
      from_account_id := d.from_account_id
      to_account_type := d.to_account_type
      to_account_id := d.to_account_id
      due_date := none
      frequency := some d.frequency.value
      start_date := some d.start_date
      end_date := d.end_date
      next_due_date := some next_due
      status := PaymentStatus.pending
      processed_date := none
      reconciled_date := none
      notes := d.notes
      is_active := true }
  let occ : PaymentOccurrence :=
    { id := db.next_occurrence_id
      payment_id := p.id
      scheduled_date := d.start_date
      due_date := some d.start_date
      amount := d.amount
      status := PaymentStatus.scheduled }
  (p,
   { db with
      payments := (db.payments ++ [p])
      occurrences := (db.occurrences ++ [occ])
      next_payment_id := db.next_payment_id + 1
      next_occurrence_id := db.next_occurrence_id + 1 })

/-! ### Credit card service (`app/services/credit_card_service.py`) -/

/-- `CreditCardService.get_card`. -/
def get_card (db : DB) (card_id user_id : Nat) : Option CreditCard :=
  db.cards.find? (fun c => decide (c.id = card_id ∧ c.user_id = user_id))

/-- The derived cycle record returned by `get_invoice_cycle`. -/
structure BillingCycle where
  cycle_start_date : Date
  cycle_end_date : Date
  close_date : Date
  due_date : Date
deriving DecidableEq, Repr

/-- The cycle computation of `get_invoice_cycle` after the card lookup. -/
def invoice_cycle_for_card (card : CreditCard) (reference_date : Date) : BillingCycle :=
  let close_date := build_date_with_day reference_date.year reference_date.month
    card.invoice_close_day
  if reference_date ≤ close_date then
    let prev := shift_month reference_date.year reference_date.month (-1)
    let prev_close := build_date_with_day prev.1 prev.2 card.invoice_close_day
    { cycle_start_date := prev_close.addDays 1
      cycle_end_date := close_date
      close_date := close_date
      due_date := close_date.addDays card.payment_due_day }
  else
    let nxt := shift_month reference_date.year reference_date.month 1
    let next_close := build_date_with_day nxt.1 nxt.2 card.invoice_close_day
    { cycle_start_date := close_date.addDays 1
      cycle_end_date := next_close
      close_date := next_close
      due_date := next_close.addDays card.payment_due_day }

/-- `CreditCardService.get_invoice_cycle`. -/
def get_invoice_cycle (db : DB) (card_id user_id : Nat) (reference_date : Date) :
    Option BillingCycle :=
  (get_card db card_id user_id).map (fun card => invoice_cycle_for_card card reference_date)

/-- One line of the statement transaction list. -/
structure StatementTxn where
  payment_id : Nat
  occurrence_id : Option Nat
  description : String
  amount : Int
  signed_amount : Int
  transaction_date : Date
  status : PaymentStatus
  direction : String
deriving DecidableEq, Repr

/-- The dictionary returned by `get_statement_summary`. -/
structure StatementSummary where
  card_id : Nat
  user_id : Nat
  reference_date : Date
  cycle_start_date : Date
  cycle_end_date : Date
  close_date : Date
  due_date : Date
  transaction_count : Nat
  charges_total : Int
  payments_total : Int
  statement_balance : Int
  transactions : List StatementTxn
deriving DecidableEq, Repr

/-- `due_date` is non-NULL and inside the closed range (the range filter of
the one-time query). -/
def dueWithin (o : Option Date) (lo hi : Date) : Prop :=
  match o with
  | some dd => lo ≤ dd ∧ dd ≤ hi
  | none => False

instance (o : Option Date) (lo hi : Date) : Decidable (dueWithin o lo hi) := by
  unfold dueWithin; cases o <;> infer_instance

/-- `due_date` is non-NULL and among the listed dates (`due_date.in_(...)`). -/
def dueAmong (o : Option Date) (l : List Date) : Prop :=
  match o with
  | some dd => dd ∈ l
  | none => False

instance (o : Option Date) (l : List Date) : Decidable (dueAmong o l) := by
  unfold dueAmong; cases o <;> infer_instance

/-- `status.notin_([CANCELLED, FAILED])`. -/
def statusLive (s : PaymentStatus) : Prop :=
  s ≠ PaymentStatus.cancelled ∧ s ≠ PaymentStatus.failed

instance (s : PaymentStatus) : Decidable (statusLive s) := by
  unfold statusLive; infer_instance

/-- The payment references this card as source or destination. -/
def referencesCard (card_id : Nat) (p : Payment) : Prop :=
  (p.from_account_type = some "credit_card" ∧ p.from_account_id = some card_id) ∨
  (p.to_account_type = some "credit_card" ∧ p.to_account_id = some card_id)

instance (card_id : Nat) (p : Payment) : Decidable (referencesCard card_id p) := by
  unfold referencesCard; infer_instance

/-- The classification test: the card is the payment's destination. -/
def isCardDestination (card_id : Nat) (p : Payment) : Prop :=
  p.to_account_type = some "credit_card" ∧ p.to_account_id = some card_id

instance (card_id : Nat) (p : Payment) : Decidable (isCardDestination card_id p) := by
  unfold isCardDestination; infer_instance

/-- Sort key relation of `transactions.sort(key=lambda t: t["transaction_date"])`. -/
def txnLe (a b : StatementTxn) : Prop := a.transaction_date ≤ b.transaction_date

instance : DecidableRel txnLe := fun a b =>
  inferInstanceAs (Decidable (a.transaction_date ≤ b.transaction_date))

instance : IsTotal StatementTxn txnLe :=
  ⟨fun a b => by unfold txnLe LE.le instLEDate Date.le; omega⟩

instance : IsTrans StatementTxn txnLe :=
  ⟨fun a b c h1 h2 => by unfold txnLe LE.le instLEDate Date.le at h1 h2 ⊢; omega⟩

/-- Build one statement line from an (occurrence, parent payment) pair. -/
def occTxn (card_id : Nat) (o : PaymentOccurrence) (p : Payment) : StatementTxn :=
  if isCardDestination card_id p then
    { payment_id := p.id
      occurrence_id := some o.id
      description := p.description
      amount := o.amount
      signed_amount := -o.amount
      transaction_date := o.scheduled_date
      status := o.status
      direction := "payment" }
  else
    { payment_id := p.id
      occurrence_id := some o.id
      description := p.description
      amount := o.amount
      signed_amount := o.amount
      transaction_date := o.scheduled_date
      status := o.status
      direction := "charge" }

/-- Build one statement line from a due-dated payment row without a counted
occurrence (`transaction_date` is its `due_date`, non-NULL by the query). -/
def paymentTxn (card_id : Nat) (fallback : Date) (p : Payment) : StatementTxn :=
  if isCardDestination card_id p then
    { payment_id := p.id
      occurrence_id := none
      description := p.description
      amount := p.amount
      signed_amount := -p.amount
      transaction_date := p.due_date.getD fallback
      status := p.status
      direction := "payment" }
  else
    { payment_id := p.id
      occurrence_id := none
      description := p.description
      amount := p.amount
      signed_amount := p.amount
      transaction_date := p.due_date.getD fallback
      status := p.status
      direction := "charge" }

/-- `CreditCardService.get_statement_summary`.  The two queries become list
filters (the join is a `find?` on the parent payment id); the running
`charges_total`/`payments_total` accumulators become sums over the lines
each group contributes; the final `transactions.sort` is a stable
insertion sort on the transaction date. -/
def get_statement_summary (db : DB) (card_id user_id : Nat) (reference_date : Date) :
    Option StatementSummary :=
  match get_card db card_id user_id with
  | none => none
  | some card =>
    match get_invoice_cycle db card_id user_id reference_date with
    | none => none
    | some cycle =>
      let cycle_start := cycle.cycle_start_date
      let cycle_end := cycle.cycle_end_date
      let occurrence_rows := (db.occurrences.filterMap (fun o =>
          (db.payments.find? (fun p => decide (p.id = o.payment_id))).map
            (fun p => (o, p)))).filter
        (fun op => decide (op.2.user_id = user_id ∧
          cycle_start ≤ op.1.scheduled_date ∧ op.1.scheduled_date ≤ cycle_end ∧
          statusLive op.1.status ∧ referencesCard card_id op.2))
      let occTxns := occurrence_rows.map (fun op => occTxn card_id op.1 op.2)
      let seen := occurrence_rows.map (fun op => op.2.id)
      let one_time_rows := db.payments.filter (fun p => decide (p.user_id = user_id ∧
        ¬ p.id ∈ seen ∧ dueWithin p.due_date cycle_start cycle_end ∧
        statusLive p.status ∧ referencesCard card_id p))
      let otTxns := one_time_rows.map (fun p => paymentTxn card_id reference_date p)
      let pre := occTxns ++ otTxns
      let charges_total :=
        ((pre.filter (fun t => decide (t.direction = "charge"))).map (fun t => t.amount)).sum
      let payments_total :=
        ((pre.filter (fun t => decide (t.direction = "payment"))).map (fun t => t.amount)).sum
      let transactions := pre.insertionSort txnLe
      some
        { card_id := card.id
          user_id := user_id
          reference_date := reference_date
          cycle_start_date := cycle_start
          cycle_end_date := cycle_end
          close_date := cycle.close_date
          due_date := cycle.due_date
          transaction_count := transactions.length
          charges_total := charges_total
          payments_total := payments_total
          statement_balance := charges_total - payments_total
          transactions := transactions }

/-- `order_by(BankAccount.id).first()`. -/
def firstById (l : List BankAccount) : Option BankAccount :=
  (l.insertionSort (fun a b : BankAccount => a.id ≤ b.id)).head?

/-- `CreditCardService._resolve_default_payment_account_id`: an active account
matching the preferred id, else the lowest-id active checking account, else
the lowest-id active account, else `None`. -/
def resolve_default_payment_account_id (db : DB) (user_id : Nat)
    (preferred_account_id : Option Nat) : Option Nat :=
  let preferred : Option BankAccount := match preferred_account_id with
    | some pid => db.bank_accounts.find? (fun a => decide (a.id = pid ∧
        a.user_id = user_id ∧ a.is_active = true))
    | none => none
  match preferred with
  | some a => some a.id
  | none =>
    match firstById (db.bank_accounts.filter (fun a => decide (a.user_id = user_id ∧
        a.is_active = true ∧ a.account_type = "checking"))) with
    | some a => some a.id
    | none =>
      match firstById (db.bank_accounts.filter (fun a => decide (a.user_id = user_id ∧
          a.is_active = true))) with
      | some a => some a.id
      | none => none

/-- `CreditCardService.PLANNED_PAYMENT_NOTE_PREFIX` (the reserved marker). -/
def PLANNED_PAYMENT_NOTE_TAG : String := "planned_credit_card_payment:card_id="

/-- `CreditCardService._planned_note`. -/
def planned_note (card_id : Nat) : String := PLANNED_PAYMENT_NOTE_TAG ++ toString card_id

/-- `CreditCardService.PLANNED_PAYMENT_MONTHS_AHEAD`. -/
def PLANNED_PAYMENT_MONTHS_AHEAD : Nat := 12

/-- The horizon loop of `_sync_planned_payments`: for each of the next 12
months take the (clamped) 15th as reference, and record the cycle's due
date with the statement balance floored at zero. -/
def plan_entries (db : DB) (card : CreditCard) (today : Date) : List (Date × Int) :=
  (List.range PLANNED_PAYMENT_MONTHS_AHEAD).filterMap (fun offset =>
    let ym := shift_month today.year today.month (Int.ofNat offset)
    let reference : Date := ⟨ym.1, ym.2, min 15 (daysInMonth ym.1 ym.2)⟩
    (get_invoice_cycle db card.id card.user_id reference).map (fun cycle =>
      let desired :=
        match get_statement_summary db card.id card.user_id reference with
        | some s => s.statement_balance
        | none => 0
      (cycle.due_date, if desired < 0 then 0 else desired)))

/-- `desired_by_due[d]`: dict built from the entries, later entries win. -/
def desired_by_due (entries : List (Date × Int)) (d : Date) : Int :=
  ((entries.reverse.find? (fun e => decide (e.1 = d))).map (fun e => e.2)).getD 0

/-- The `existing` query of `_sync_planned_payments`: live one-time payments
to this card whose due date is one of the desired due dates. -/
def sync_existing (db : DB) (card : CreditCard) (due_dates : List Date) : List Payment :=
  db.payments.filter (fun p => decide (p.user_id = card.user_id ∧
    p.payment_type = PaymentType.one_time ∧
    p.to_account_type = some "credit_card" ∧ p.to_account_id = some card.id ∧
    dueAmong p.due_date due_dates ∧ statusLive p.status))

/-- `planned_by_due[d]`: the last marker-noted payment at that due date
(dict insertion order, later rows overwrite). -/
def planned_by_due (existing : List Payment) (card_id : Nat) (d : Date) : Option Payment :=
  (existing.filter (fun p => decide (p.notes = some (planned_note card_id) ∧
    p.due_date = some d))).getLast?

/-- `d ∈ blocked_due_dates`: some non-marker payment occupies the due date. -/
def blockedDue (existing : List Payment) (card_id : Nat) (d : Date) : Prop :=
  ∃ p ∈ existing, p.notes ≠ some (planned_note card_id) ∧ p.due_date = some d

instance (existing : List Payment) (card_id : Nat) (d : Date) :
    Decidable (blockedDue existing card_id d) := by
  unfold blockedDue; infer_instance

/-- The in-place field updates applied to an existing placeholder. -/
def update_planned (card : CreditCard) (desired : Int) (q : Payment) : Payment :=
  { q with
      description := ("Planned payment - " ++ card.name)
      amount := desired
      currency := card.currency
      category := some "transfer"
      from_account_type := some "bank_account"
      from_account_id := card.default_payment_account_id
      to_account_type := some "credit_card"
      to_account_id := some card.id
      status := PaymentStatus.pending
      notes := some (planned_note card.id) }

/-- The freshly created placeholder payment. -/
def new_planned (card : CreditCard) (desired : Int) (due : Date) (pid : Nat) : Payment :=
  { id := pid
    user_id := card.user_id
    payment_type := PaymentType.one_time
    description := ("Planned payment - " ++ card.name)
    amount := desired
    currency := card.currency
    category := some "transfer"
    from_account_type := some "bank_account"
    from_account_id := card.default_payment_account_id
    to_account_type := some "credit_card"
    to_account_id := some card.id
    due_date := some due
    frequency := none
    start_date := none
    end_date := none
    next_due_date := none
    status := PaymentStatus.pending
    processed_date := none
    reconciled_date := none
    notes := some (planned_note card.id)
    is_active := true }

/-- One iteration of the reconciliation `for due_date in due_dates` loop:
blocked dates drop any stale placeholder; otherwise a zero desired amount
deletes the placeholder, a positive one updates it in place or creates it. -/
def reconcile_step (card : CreditCard) (existing : List Payment)
    (desired : Date → Int) (db : DB) (due : Date) : DB :=
  if blockedDue existing card.id due then
    match planned_by_due existing card.id due with
    | some pl => { db with payments := db.payments.filter (fun q => decide (¬ q.id = pl.id)) }
    | none => db
  else
    match planned_by_due existing card.id due with
    | some pl =>
      if desired due ≤ 0 then
        { db with payments := db.payments.filter (fun q => decide (¬ q.id = pl.id)) }
      else
        { db with payments := db.payments.map (fun q =>
            if q.id = pl.id then update_planned card (desired due) q else q) }
    | none =>
      if desired due ≤ 0 then db
      else
        { db with
            payments := (db.payments ++ [new_planned card (desired due) due db.next_payment_id])
            next_payment_id := db.next_payment_id + 1 }

/-- `CreditCardService._sync_planned_payments` (the core synchronizer):
no-op without a truthy default payment account or without plan entries,
else reconcile every desired due date against the `existing` snapshot. -/
def sync_planned_payments_card (db : DB) (card : CreditCard) (today : Date) : DB :=
  if card.default_payment_account_id.getD 0 = 0 then db
  else
    let entries := plan_entries db card today
    if entries = [] then db
    else
      let due_dates := entries.map (fun e => e.1)
      let existing := sync_existing db card due_dates
      due_dates.foldl (reconcile_step card existing (desired_by_due entries)) db

/-- The state after the mutated card row is persisted (the ORM object and
its row are one; the update is keyed by primary key). -/
def with_card_row (db : DB) (card : CreditCard) : DB :=
  { db with cards := db.cards.map (fun c => if c.id = card.id then card else c) }

/-- `CreditCardService.sync_planned_payments` (the public entry point):
look the card up, backfill a missing default payment account (persisting
the card row), run the core synchronizer and report success. -/
def sync_planned_payments (db : DB) (card_id user_id : Nat) (today : Date) : DB × Bool :=
  match get_card db card_id user_id with
  | none => (db, false)
  | some card =>
    let card1 := if card.default_payment_account_id.getD 0 = 0 then
        { card with default_payment_account_id :=
            resolve_default_payment_account_id db user_id none }
      else card
    (sync_planned_payments_card (with_card_row db card1) card1 today, true)

/-- Billing cycle computed from the WORDS of spec §4.4, for the refinement
claim C3: close date of a month = that month with day clamped to the month
length; on-or-before the close date the cycle follows the previous month's
close, after it the next month's; the due date is a day offset. -/
def billingCycleSpec (invoice_close_day : Int) (payment_due_day : Nat) (ref : Date) :
    BillingCycle :=
  let closeOf : Int → Int → Date := fun y m => ⟨y, m, min invoice_close_day (daysInMonth y m)⟩
  let thisClose := closeOf ref.year ref.month
  if ref ≤ thisClose then
    let prevYM : Int × Int := if ref.month = 1 then (ref.year - 1, 12) else (ref.year, ref.month - 1)
    { cycle_start_date := (closeOf prevYM.1 prevYM.2).addDays 1
      cycle_end_date := thisClose
      close_date := thisClose
      due_date := thisClose.addDays payment_due_day }
  else
    let nextYM : Int × Int := if ref.month = 12 then (ref.year + 1, 1) else (ref.year, ref.month + 1)
    let nextClose := closeOf nextYM.1 nextYM.2
    { cycle_start_date := thisClose.addDays 1
      cycle_end_date := nextClose
      close_date := nextClose
      due_date := nextClose.addDays payment_due_day }

/-- The at-most-one-occurrence-per-(payment, scheduled_date) invariant. -/
def OccUnique (l : List PaymentOccurrence) : Prop :=
  l.Pairwise (fun a b => a.payment_id = b.payment_id → a.scheduled_date ≠ b.scheduled_date)

instance (l : List PaymentOccurrence) : Decidable (OccUnique l) := by
  unfold OccUnique
  infer_instance

/-- A live machine-managed placeholder for this card at due date `d`: the
rows the synchronizer itself manages (marker note, one-time, to the card,
not cancelled/failed). -/
def IsPlaceholderAt (card : CreditCard) (d : Date) (p : Payment) : Prop :=
  p.user_id = card.user_id ∧ p.payment_type = PaymentType.one_time ∧
  p.to_account_type = some "credit_card" ∧ p.to_account_id = some card.id ∧
  p.due_date = some d ∧ statusLive p.status ∧ p.notes = some (planned_note card.id)

instance (card : CreditCard) (d : Date) (p : Payment) :
    Decidable (IsPlaceholderAt card d p) := by
  unfold IsPlaceholderAt; infer_instance

/-! ### Concrete fixtures used by the examples and witnesses -/

/-- A card closing on the 15th whose payment is due 10 days later. -/
def exCard : CreditCard := ⟨1, 1, "Card", "USD", 15, 10, some 1, true⟩

/-- An active checking account for user 1. -/
def exAccount : BankAccount := ⟨1, 1, "checking", true⟩

/-- A 100.00 charge on the card due 2026-01-10 (in the cycle closing 2026-01-15). -/
def exChargeJan : Payment := ⟨1, 1, PaymentType.one_time, "groceries", 10000, "USD", none,
  some "credit_card", some 1, none, none, some ⟨2026, 1, 10⟩, none, none, none, none,
  PaymentStatus.pending, none, none, none, true⟩

/-- A 50.00 charge on the card due 2026-02-10 (in the cycle closing 2026-02-15). -/
def exChargeFeb : Payment := ⟨2, 1, PaymentType.one_time, "fuel", 5000, "USD", none,
  some "credit_card", some 1, none, none, some ⟨2026, 2, 10⟩, none, none, none, none,
  PaymentStatus.pending, none, none, none, true⟩

/-- The two-charge state exercising the synchronizer. -/
def exDB : DB := ⟨[exChargeJan, exChargeFeb], [], [], [exCard], [exAccount], 3, 1⟩

/-- `date.today()` for the concrete synchronizer runs. -/
def exToday : Date := ⟨2026, 1, 10⟩

/-- A 120.00 charge due 2026-03-20 (inside the 16 Mar – 15 Apr cycle). -/
def c5Charge : Payment := ⟨1, 1, PaymentType.one_time, "hotel", 12000, "USD", none,
  some "credit_card", some 1, none, none, some ⟨2026, 3, 20⟩, none, none, none, none,
  PaymentStatus.pending, none, none, none, true⟩

/-- A 70.00 payment to the card due 2026-04-01 (inside the same cycle). -/
def c5Payment : Payment := ⟨2, 1, PaymentType.one_time, "payoff", 7000, "USD", none,
  some "bank_account", some 1, some "credit_card", some 1, some ⟨2026, 4, 1⟩, none, none,
  none, none, PaymentStatus.pending, none, none, none, true⟩

/-- One charge and one payment inside one cycle of `exCard`. -/
def c5DB : DB := ⟨[c5Charge, c5Payment], [], [], [exCard], [exAccount], 3, 1⟩

/-- A monthly recurring payment starting on 2026-01-31. -/
def c2Payment : Payment := ⟨7, 1, PaymentType.recurring, "rent", 999, "USD", none,
  none, none, none, none, none, some "monthly", some ⟨2026, 1, 31⟩, none,
  some ⟨2026, 2, 28⟩, PaymentStatus.pending, none, none, none, true⟩

/-- State holding only the end-of-month recurring payment. -/
def c2DB : DB := ⟨[c2Payment], [], [], [], [], 8, 1⟩

/-- A recurring (not one-time) user payment to the card occupying due date
2026-01-25, the desired due date of `exCard`'s January cycle. -/
def c7Recurring : Payment := ⟨2, 1, PaymentType.recurring, "manual payoff", 4000, "USD",
  none, some "bank_account", some 1, some "credit_card", some 1, some ⟨2026, 1, 25⟩,
  some "monthly", some ⟨2026, 1, 25⟩, none, some ⟨2026, 2, 25⟩,
  PaymentStatus.pending, none, none, none, true⟩

/-- The January charge plus the recurring payment occupying 2026-01-25. -/
def c7DB : DB := ⟨[exChargeJan, c7Recurring], [], [], [exCard], [exAccount], 3, 1⟩

/-- A one-time user payment to the card occupying due date 2026-01-25, with
ordinary user notes. -/
def c7u : Payment := ⟨2, 1, PaymentType.one_time, "manual payoff", 10000, "USD", none,
  some "bank_account", some 1, some "credit_card", some 1, some ⟨2026, 1, 25⟩, none,
  none, none, none, PaymentStatus.pending, none, none, some "pay manually", true⟩

/-- A stale machine-managed placeholder already sitting at 2026-01-25. -/
def c7stale : Payment := ⟨3, 1, PaymentType.one_time, "Planned payment - Card", 7700,
  "USD", some "transfer", some "bank_account", some 1, some "credit_card", some 1,
  some ⟨2026, 1, 25⟩, none, none, none, none, PaymentStatus.pending, none, none,
  some (planned_note 1), true⟩

/-- January charge + one-time user payment at the desired due date + stale
placeholder at the same date. -/
def c7DB2 : DB := ⟨[exChargeJan, c7u, c7stale], [], [], [exCard], [exAccount], 4, 1⟩

/-- A weekly recurring payment starting 2026-01-01, with a skip override and
a change-amount override both covering 2026-01-15 (skip listed second). -/
def c6Payment : Payment := ⟨4, 1, PaymentType.recurring, "gym", 2500, "USD", none,
  none, none, none, none, none, some "weekly", some ⟨2026, 1, 1⟩, none,
  some ⟨2026, 1, 8⟩, PaymentStatus.pending, none, none, none, true⟩

/-- An active change-amount override covering only 2026-01-15. -/
def c6ChangeAmount : RecurringPaymentOverride := ⟨1, 4, "change_amount",
  some ⟨2026, 1, 15⟩, ⟨2026, 1, 1⟩, none, none, some 9900, none, true⟩

/-- An active skip override covering only 2026-01-15, listed after the
change-amount override. -/
def c6Skip : RecurringPaymentOverride := ⟨2, 4, "skip",
  some ⟨2026, 1, 15⟩, ⟨2026, 1, 1⟩, none, none, none, none, true⟩

/-- State with the weekly payment and both overrides. -/
def c6DB : DB := ⟨[c6Payment], [], [c6ChangeAmount, c6Skip], [], [], 5, 1⟩

/-- A fresh recurring-payment payload (quarterly from 2026-01-31). -/
def c9Data : RecurringPaymentCreate := ⟨"insurance", 4500, "USD", none, some "bank_account",
  some 1, none, none, none, PaymentFrequency.quarterly, ⟨2026, 1, 31⟩, none⟩

/-- An empty state for creation runs. -/
def c9DB : DB := ⟨[], [], [], [], [], 1, 1⟩

/-- A card without a default payment account, owned by a user whose only
bank account is inactive. -/
def c8Card : CreditCard := ⟨1, 1, "Card", "USD", 15, 10, none, true⟩

/-- An inactive bank account. -/
def c8Account : BankAccount := ⟨1, 1, "checking", false⟩

/-- State for the no-resolvable-account no-op run. -/
def c8DB : DB := ⟨[exChargeJan], [], [], [c8Card], [c8Account], 2, 1⟩

/-! ### Date arithmetic lemmas -/

theorem Date.le_def (a b : Date) : a ≤ b ↔
    (a.year < b.year ∨ (a.year = b.year ∧
      (a.month < b.month ∨ (a.month = b.month ∧ a.day ≤ b.day)))) := Iff.rfl

theorem Date.lt_def (a b : Date) : a < b ↔
    (a.year < b.year ∨ (a.year = b.year ∧
      (a.month < b.month ∨ (a.month = b.month ∧ a.day < b.day)))) := Iff.rfl

theorem daysInMonth_le (y m : Int) : daysInMonth y m ≤ 31 := by
  unfold daysInMonth; split <;> [split <;> omega; skip]; split <;> omega

theorem daysInMonth_ge (y m : Int) : 28 ≤ daysInMonth y m := by
  unfold daysInMonth; split <;> [split <;> omega; skip]; split <;> omega

theorem normMonthGo_in_range (n : Nat) (y m : Int) (h1 : 1 ≤ m) (h2 : m ≤ 12) :
    normMonthGo n y m = (y, m) := by
  cases n with
  | zero => rfl
  | succ n => rw [normMonthGo, if_neg (by omega), if_neg (by omega)]

theorem normMonth_of_in_range (y m : Int) (h1 : 1 ≤ m) (h2 : m ≤ 12) :
    normMonth y m = (y, m) :=
  normMonthGo_in_range _ y m h1 h2

theorem normMonth_add_small (y m k : Int) (h1 : 1 ≤ m) (h2 : m ≤ 12)
    (hk1 : 1 ≤ k) (hk2 : k ≤ 12) :
    normMonth y (m + k) = if m + k ≤ 12 then (y, m + k) else (y + 1, m + k - 12) := by
  by_cases h : m + k ≤ 12
  · rw [if_pos h]
    exact normMonth_of_in_range y (m + k) (by omega) h
  · rw [if_neg h]
    unfold normMonth
    obtain ⟨n, hn⟩ : ∃ n, (1 - (m + k)).toNat + (m + k - 12).toNat = n + 1 :=
      ⟨(m + k - 12).toNat - 1, by omega⟩
    rw [hn, normMonthGo, if_neg (by omega), if_pos (by omega)]
    exact normMonthGo_in_range n (y + 1) (m + k - 12) (by omega) (by omega)

theorem Date.le_total_ (a b : Date) : a ≤ b ∨ b ≤ a := by
  rw [Date.le_def, Date.le_def]; omega

theorem Date.le_trans_ {a b c : Date} (h1 : a ≤ b) (h2 : b ≤ c) : a ≤ c := by
  rw [Date.le_def] at h1 h2 ⊢; omega

theorem Date.lt_of_not_le_ {a b : Date} (h : ¬ a ≤ b) : b < a := by
  rw [Date.le_def] at h; rw [Date.lt_def]; omega

theorem Date.le_of_lt_ {a b : Date} (h : a < b) : a ≤ b := by
  rw [Date.lt_def] at h; rw [Date.le_def]; omega

theorem Date.ne_of_lt_ {a b : Date} (h : a < b) : a ≠ b := by
  rw [Date.lt_def] at h
  intro he
  rw [he] at h
  omega

theorem Date.mu_mono {a b : Date} (ha : a.Valid) (hb : b.Valid) (h : a ≤ b) :
    a.mu ≤ b.mu := by
  obtain ⟨ha1, ha2, ha3, ha4⟩ := ha
  obtain ⟨hb1, hb2, hb3, hb4⟩ := hb
  have hda := daysInMonth_le a.year a.month
  have hdb := daysInMonth_le b.year b.month
  rw [Date.le_def] at h
  unfold Date.mu
  omega

theorem Date.lt_of_mu_lt {a b : Date} (ha : a.Valid) (hb : b.Valid)
    (h : a.mu < b.mu) : a < b := by
  by_contra hc
  have hle : b ≤ a := by
    rw [Date.lt_def] at hc; rw [Date.le_def]; omega
  have := Date.mu_mono hb ha hle
  omega

theorem nextDay_valid {d : Date} (h : d.Valid) : d.nextDay.Valid := by
  obtain ⟨h1, h2, h3, h4⟩ := h
  have hg1 := daysInMonth_ge d.year (d.month + 1)
  have hg2 := daysInMonth_ge (d.year + 1) 1
  unfold Date.nextDay Date.Valid
  split
  · dsimp only
    omega
  · split <;> dsimp only <;> omega

theorem nextDay_mu {d : Date} (h : d.Valid) : d.mu < d.nextDay.mu := by
  obtain ⟨h1, h2, h3, h4⟩ := h
  have hda := daysInMonth_le d.year d.month
  unfold Date.nextDay Date.mu
  split
  · dsimp only
    omega
  · split <;> dsimp only <;> omega

theorem addDays_valid {d : Date} (n : Nat) (h : d.Valid) : (d.addDays n).Valid := by
  induction n generalizing d with
  | zero => exact h
  | succ n ih => exact ih (nextDay_valid h)

theorem addDays_mu {d : Date} (n : Nat) (hn : 0 < n) (h : d.Valid) :
    d.mu < (d.addDays n).mu := by
  induction n generalizing d with
  | zero => omega
  | succ n ih =>
    rcases Nat.eq_zero_or_pos n with hz | hp
    · subst hz; exact nextDay_mu h
    · exact lt_trans (nextDay_mu h) (ih hp (nextDay_valid h))

theorem relDeltaMonths_valid {d : Date} (k : Int) (hk1 : 1 ≤ k) (hk2 : k ≤ 12)
    (h : d.Valid) : (relDeltaMonths d k).Valid := by
  obtain ⟨h1, h2, h3, h4⟩ := h
  have hg1 := daysInMonth_ge d.year (d.month + k)
  have hg2 := daysInMonth_ge (d.year + 1) (d.month + k - 12)
  unfold relDeltaMonths Date.Valid
  rw [normMonth_add_small d.year d.month k h1 h2 hk1 hk2]
  split <;> dsimp only <;> omega

theorem relDeltaMonths_mu {d : Date} (k : Int) (hk1 : 1 ≤ k) (hk2 : k ≤ 12)
    (h : d.Valid) : d.mu < (relDeltaMonths d k).mu := by
  obtain ⟨h1, h2, h3, h4⟩ := h
  have hda := daysInMonth_le d.year d.month
  have hg1 := daysInMonth_ge d.year (d.month + k)
  have hg2 := daysInMonth_ge (d.year + 1) (d.month + k - 12)
  unfold relDeltaMonths Date.mu
  rw [normMonth_add_small d.year d.month k h1 h2 hk1 hk2]
  split <;> dsimp only <;> omega

theorem relDeltaYears1_valid {d : Date} (h : d.Valid) : (relDeltaYears1 d).Valid := by
  obtain ⟨h1, h2, h3, h4⟩ := h
  have hge := daysInMonth_ge (d.year + 1) d.month
  unfold relDeltaYears1 Date.Valid
  dsimp only
  omega

theorem relDeltaYears1_mu {d : Date} (h : d.Valid) : d.mu < (relDeltaYears1 d).mu := by
  obtain ⟨h1, h2, h3, h4⟩ := h
  have hda := daysInMonth_le d.year d.month
  have hge := daysInMonth_ge (d.year + 1) d.month
  unfold relDeltaYears1 Date.mu
  dsimp only
  omega

theorem next_due_valid {d : Date} {f : String} (hf : RecognizedFreq f) (h : d.Valid) :
    (calculate_next_due_date d (some f)).Valid := by
  rcases hf with hf | hf | hf | hf | hf <;> subst hf <;> unfold calculate_next_due_date
  · rw [if_pos rfl]
    exact addDays_valid 1 h
  · rw [if_neg (by decide), if_pos rfl]
    exact addDays_valid 7 h
  · rw [if_neg (by decide), if_neg (by decide), if_pos rfl]
    exact relDeltaMonths_valid 1 (by norm_num) (by norm_num) h
  · rw [if_neg (by decide), if_neg (by decide), if_neg (by decide), if_pos rfl]
    exact relDeltaMonths_valid 3 (by norm_num) (by norm_num) h
  · rw [if_neg (by decide), if_neg (by decide), if_neg (by decide), if_neg (by decide),
      if_pos rfl]
    exact relDeltaYears1_valid h

theorem next_due_mu {d : Date} {f : String} (hf : RecognizedFreq f) (h : d.Valid) :
    d.mu < (calculate_next_due_date d (some f)).mu := by
  rcases hf with hf | hf | hf | hf | hf <;> subst hf <;> unfold calculate_next_due_date
  · rw [if_pos rfl]
    exact addDays_mu 1 (by norm_num) h
  · rw [if_neg (by decide), if_pos rfl]
    exact addDays_mu 7 (by norm_num) h
  · rw [if_neg (by decide), if_neg (by decide), if_pos rfl]
    exact relDeltaMonths_mu 1 (by norm_num) (by norm_num) h
  · rw [if_neg (by decide), if_neg (by decide), if_neg (by decide), if_pos rfl]
    exact relDeltaMonths_mu 3 (by norm_num) (by norm_num) h
  · rw [if_neg (by decide), if_neg (by decide), if_neg (by decide), if_neg (by decide),
      if_pos rfl]
    exact relDeltaYears1_mu h

theorem next_due_lt {d : Date} {f : String} (hf : RecognizedFreq f) (h : d.Valid) :
    d < calculate_next_due_date d (some f) :=
  Date.lt_of_mu_lt h (next_due_valid hf h) (next_due_mu hf h)


theorem Date.le_refl_ (a : Date) : a ≤ a := by
  rw [Date.le_def]; omega

theorem Date.lt_of_lt_of_le_ {a b c : Date} (h1 : a < b) (h2 : b ≤ c) : a < c := by
  rw [Date.lt_def] at h1 ⊢; rw [Date.le_def] at h2; omega

/-! ### Override resolution and generation-loop lemmas -/

theorem apply_overrides_skip {d : Date} {ovs : List RecurringPaymentOverride}
    (h : ∃ o ∈ ovs, is_date_affected d o = true ∧ o.override_type = "skip") :
    ∀ a, (apply_overrides d ovs a).1 = true := by
  induction ovs with
  | nil => simp at h
  | cons o rest ih =>
    intro a
    obtain ⟨o', ho', haff, hskip⟩ := h
    rw [apply_overrides]
    by_cases h1 : is_date_affected d o = true
    · rw [if_pos h1]
      by_cases h2 : o.override_type = "skip"
      · rw [if_pos h2]
      · rw [if_neg h2]
        have hrest : o' ∈ rest := by
          rcases List.mem_cons.mp ho' with he | hr
          · rw [he] at hskip; exact absurd hskip h2
          · exact hr
        split
        · exact ih ⟨o', hrest, haff, hskip⟩ _
        · exact ih ⟨o', hrest, haff, hskip⟩ _
    · rw [if_neg h1]
      have hrest : o' ∈ rest := by
        rcases List.mem_cons.mp ho' with he | hr
        · rw [he] at haff; exact absurd haff h1
        · exact hr
      exact ih ⟨o', hrest, haff, hskip⟩ a

theorem genLoop_acc (pid : Nat) (b : Int) (f : Option String)
    (ov : List RecurringPaymentOverride) (ex : List Date) (bound : Date) :
    ∀ (fuel : Nat) (cur : Date) (acc : List PaymentOccurrence) (nid : Nat),
    genLoop pid b f ov ex bound fuel cur acc nid =
      (acc ++ (genLoop pid b f ov ex bound fuel cur [] nid).1,
       (genLoop pid b f ov ex bound fuel cur [] nid).2) := by
  intro fuel
  induction fuel with
  | zero =>
    intro cur acc nid
    simp [genLoop]
  | succ n ih =>
    intro cur acc nid
    rw [genLoop, genLoop]
    by_cases h1 : cur ≤ bound
    · rw [if_pos h1, if_pos h1]
      by_cases h2 : cur ∈ ex
      · rw [if_pos h2, if_pos h2]
        exact ih _ acc nid
      · rw [if_neg h2, if_neg h2]
        by_cases h3 : (apply_overrides cur ov b).1 = true
        · rw [if_pos h3, if_pos h3]
          exact ih _ acc nid
        · rw [if_neg h3, if_neg h3]
          simp only [List.nil_append]
          rw [ih (calculate_next_due_date cur f)
              (acc ++ [newOcc pid nid cur (apply_overrides cur ov b).2]) (nid + 1),
            ih (calculate_next_due_date cur f)
              ([newOcc pid nid cur (apply_overrides cur ov b).2]) (nid + 1)]
          simp [List.append_assoc]
    · rw [if_neg h1, if_neg h1]
      simp

theorem genLoop_mem (pid : Nat) (b : Int) (f : Option String)
    (ov : List RecurringPaymentOverride) (ex : List Date) (bound : Date) :
    ∀ (fuel : Nat) (cur : Date) (nid : Nat) (o : PaymentOccurrence),
    o ∈ (genLoop pid b f ov ex bound fuel cur [] nid).1 →
    o.payment_id = pid ∧ o.status = PaymentStatus.scheduled ∧
      o.due_date = some o.scheduled_date ∧ ¬ o.scheduled_date ∈ ex ∧
      (apply_overrides o.scheduled_date ov b).1 = false := by
  intro fuel
  induction fuel with
  | zero =>
    intro cur nid o ho
    simp [genLoop] at ho
  | succ n ih =>
    intro cur nid o ho
    rw [genLoop] at ho
    by_cases h1 : cur ≤ bound
    · rw [if_pos h1] at ho
      by_cases h2 : cur ∈ ex
      · rw [if_pos h2] at ho
        exact ih _ _ _ ho
      · rw [if_neg h2] at ho
        by_cases h3 : (apply_overrides cur ov b).1 = true
        · rw [if_pos h3] at ho
          exact ih _ _ _ ho
        · rw [if_neg h3] at ho
          rw [List.nil_append, genLoop_acc] at ho
          rcases List.mem_append.mp ho with hl | hr
          · rcases List.mem_singleton.mp hl with he
            subst he
            exact ⟨rfl, rfl, rfl, h2, Bool.eq_false_iff.mpr h3⟩
          · exact ih _ _ _ hr
    · rw [if_neg h1] at ho
      simp at ho

theorem genLoop_ordered (pid : Nat) (b : Int) {fs : String}
    (hrec : RecognizedFreq fs) (ov : List RecurringPaymentOverride)
    (ex : List Date) (bound : Date) :
    ∀ (fuel : Nat) (cur : Date) (nid : Nat), cur.Valid →
    (∀ o ∈ (genLoop pid b (some fs) ov ex bound fuel cur [] nid).1,
        cur ≤ o.scheduled_date) ∧
    List.Pairwise (fun a b : Date => a < b)
      ((genLoop pid b (some fs) ov ex bound fuel cur [] nid).1.map
        (fun o => o.scheduled_date)) := by
  intro fuel
  induction fuel with
  | zero =>
    intro cur nid hv
    simp [genLoop]
  | succ n ih =>
    intro cur nid hv
    have hnv := next_due_valid hrec hv
    have hnlt := next_due_lt hrec hv
    rw [genLoop]
    by_cases h1 : cur ≤ bound
    · rw [if_pos h1]
      by_cases h2 : cur ∈ ex
      · rw [if_pos h2]
        obtain ⟨ihm, ihp⟩ := ih (calculate_next_due_date cur (some fs)) nid hnv
        exact ⟨fun o ho => Date.le_trans_ (Date.le_of_lt_ hnlt) (ihm o ho), ihp⟩
      · rw [if_neg h2]
        by_cases h3 : (apply_overrides cur ov b).1 = true
        · rw [if_pos h3]
          obtain ⟨ihm, ihp⟩ := ih (calculate_next_due_date cur (some fs)) nid hnv
          exact ⟨fun o ho => Date.le_trans_ (Date.le_of_lt_ hnlt) (ihm o ho), ihp⟩
        · rw [if_neg h3]
          rw [List.nil_append, genLoop_acc]
          obtain ⟨ihm, ihp⟩ := ih (calculate_next_due_date cur (some fs)) (nid + 1) hnv
          constructor
          · intro o ho
            rcases List.mem_append.mp ho with hl | hr
            · rcases List.mem_singleton.mp hl with he
              subst he
              exact Date.le_refl_ _
            · exact Date.le_trans_ (Date.le_of_lt_ hnlt) (ihm o hr)
          · rw [List.singleton_append, List.map_cons]
            refine List.Pairwise.cons ?_ ihp
            intro d hd
            rcases List.mem_map.mp hd with ⟨o, ho, he⟩
            subst he
            exact Date.lt_of_lt_of_le_ hnlt (ihm o ho)
    · rw [if_neg h1]
      simp

theorem genLoop_second (pid : Nat) (b : Int) (f : Option String)
    (ov : List RecurringPaymentOverride) {ex1 ex2 : List Date} (bound : Date)
    (hex : ∀ d ∈ ex1, d ∈ ex2) :
    ∀ (fuel : Nat) (cur : Date) (nid nid' : Nat),
    (∀ o ∈ (genLoop pid b f ov ex1 bound fuel cur [] nid).1, o.scheduled_date ∈ ex2) →
    (genLoop pid b f ov ex2 bound fuel cur [] nid').1 = [] ∧
      (genLoop pid b f ov ex2 bound fuel cur [] nid').2.1 = nid' := by
  intro fuel
  induction fuel with
  | zero =>
    intro cur nid nid' _
    exact ⟨rfl, rfl⟩
  | succ n ih =>
    intro cur nid nid' hgen
    rw [genLoop] at hgen
    rw [genLoop]
    by_cases h1 : cur ≤ bound
    · rw [if_pos h1] at hgen
      rw [if_pos h1]
      by_cases h2 : cur ∈ ex1
      · have h2' : cur ∈ ex2 := hex cur h2
        rw [if_pos h2] at hgen
        rw [if_pos h2']
        exact ih _ nid nid' hgen
      · rw [if_neg h2] at hgen
        by_cases h3 : (apply_overrides cur ov b).1 = true
        · rw [if_pos h3] at hgen
          by_cases h2' : cur ∈ ex2
          · rw [if_pos h2']
            exact ih _ nid nid' hgen
          · rw [if_neg h2', if_pos h3]
            exact ih _ nid nid' hgen
        · rw [if_neg h3] at hgen
          rw [List.nil_append, genLoop_acc] at hgen
          simp only [List.mem_append, List.mem_singleton] at hgen
          have h2' : cur ∈ ex2 := hgen (newOcc pid nid cur (apply_overrides cur ov b).2)
            (Or.inl rfl)
          rw [if_pos h2']
          apply ih _ (nid + 1) nid'
          intro o ho
          exact hgen o (Or.inr ho)
    · rw [if_neg h1]
      exact ⟨rfl, rfl⟩

/-- Unfolding of `generate_recurring_occurrences` on the success path. -/
theorem generate_spec {db : DB} {pid uid : Nat} {p : Payment}
    {up_to : Option Date} {today : Date} {fuel : Nat} {s : Date}
    (hfind : db.payments.find? (fun q => decide (q.id = pid ∧ q.user_id = uid ∧
        q.payment_type = PaymentType.recurring)) = some p)
    (hact : p.is_active = true) (hstart : p.start_date = some s) :
    generate_recurring_occurrences db pid uid up_to today fuel =
      some ((gen_run db pid p s up_to today fuel).1,
        { db with
            occurrences := (db.occurrences ++ (gen_run db pid p s up_to today fuel).1)
            next_occurrence_id := (gen_run db pid p s up_to today fuel).2.1 },
        (gen_run db pid p s up_to today fuel).2.2) := by
  unfold generate_recurring_occurrences
  rw [hfind]
  dsimp only
  rw [hact, hstart]
  simp

/-! ### Claim theorems -/

set_option maxRecDepth 4000

/-- C1: the claim says running `syncPlannedPayments` twice in a row with no
intervening data change makes the second run a no-op (zero creates, updates
and deletes).  On the code this fails: the first run's January placeholder
(due 2026-01-25) is counted as a payment inside the February cycle by the
second run's statement summaries, driving that cycle's desired amount to
zero, so the second run deletes the February placeholder.  This theorem
evaluates the embedded synchronizer at that failing input: after run one
there is exactly one placeholder due 2026-02-25, after run two there is
none, and the payment tables differ. -/
theorem C1_sync_not_idempotent :
    ((sync_planned_payments exDB 1 1 exToday).1.payments.countP
        (fun p => decide (p.notes = some (planned_note 1) ∧
          p.due_date = some ⟨2026, 2, 25⟩)) = 1) ∧
    ((sync_planned_payments (sync_planned_payments exDB 1 1 exToday).1 1 1 exToday).1.payments.countP
        (fun p => decide (p.notes = some (planned_note 1) ∧
          p.due_date = some ⟨2026, 2, 25⟩)) = 0) ∧
    (sync_planned_payments (sync_planned_payments exDB 1 1 exToday).1 1 1 exToday).1.payments ≠
      (sync_planned_payments exDB 1 1 exToday).1.payments := by
  exact ⟨by decide, by decide, by decide⟩

/-- C2 (counterexample): for the monthly recurring payment starting
2026-01-31, generation up to 2026-04-30 produces 2026-03-28 after the
clamped 2026-02-28 — not 2026-03-31 as the claim states — because the
next-due-date step is applied to the previous (already clamped) occurrence
date, so the original day-of-month is never restored. -/
theorem C2_counterexample :
    ((generate_recurring_occurrences c2DB 7 1 (some ⟨2026, 4, 30⟩) exToday 100).map
        (fun r => r.1.map (fun o => o.scheduled_date)) =
      some [⟨2026, 1, 31⟩, ⟨2026, 2, 28⟩, ⟨2026, 3, 28⟩, ⟨2026, 4, 28⟩]) ∧
    calculate_next_due_date ⟨2026, 2, 28⟩ (some "monthly") = ⟨2026, 3, 28⟩ ∧
    calculate_next_due_date ⟨2026, 1, 31⟩ (some "monthly") = ⟨2026, 2, 28⟩ := by
  exact ⟨by decide, by decide, by decide⟩

/-- C2 (amended): for a recurring payment with frequency monthly and
start_date 2026-01-31, occurrence generation up to 2026-04-30 produces
successive occurrence dates 2026-02-28, 2026-03-28 and 2026-04-28: the
month step clamps to the last day of a shorter month and subsequent steps
advance from the clamped date, so the day-of-month stays at the clamp. -/
theorem C2_amended_monthly_clamp :
    (generate_recurring_occurrences c2DB 7 1 (some ⟨2026, 4, 30⟩) exToday 100).map
        (fun r => r.1.map (fun o => o.scheduled_date)) =
      some [⟨2026, 1, 31⟩, ⟨2026, 2, 28⟩, ⟨2026, 3, 28⟩, ⟨2026, 4, 28⟩] := by
  decide

theorem shift_month_neg_one (y m : Int) (h1 : 1 ≤ m) (h2 : m ≤ 12) :
    shift_month y m (-1) = if m = 1 then (y - 1, 12) else (y, m - 1) := by
  unfold shift_month
  by_cases hm : m = 1
  · subst hm
    rw [if_pos rfl]
    norm_num
    rfl
  · rw [if_neg hm]
    have he : m + -1 = m - 1 := by ring
    rw [he, normMonth_of_in_range y (m - 1) (by omega) (by omega)]

theorem shift_month_pos_one (y m : Int) (h1 : 1 ≤ m) (h2 : m ≤ 12) :
    shift_month y m 1 = if m = 12 then (y + 1, 1) else (y, m + 1) := by
  unfold shift_month
  by_cases hm : m = 12
  · subst hm
    rw [if_pos rfl]
    rfl
  · rw [if_neg hm, normMonth_of_in_range y (m + 1) (by omega) (by omega)]

/-- C3: for every credit card and valid reference date, `get_invoice_cycle`
computes exactly the billing cycle the spec describes (close date clamped to
the month length; a reference date on or before the close date belongs to
the cycle ending that day, otherwise the cycle ends at the next month's
close date, which is returned as close_date; due date is close date plus
`payment_due_day` days); and the concrete example — close day 15, due
offset 10, reference 20 March 2026 — yields the 16 Mar – 15 Apr cycle with
due date 25 Apr. -/
theorem C3_billing_cycle :
    (∀ (card : CreditCard) (ref : Date), ref.Valid →
      invoice_cycle_for_card card ref =
        billingCycleSpec card.invoice_close_day card.payment_due_day ref) ∧
    get_invoice_cycle c5DB 1 1 ⟨2026, 3, 20⟩ =
      some ⟨⟨2026, 3, 16⟩, ⟨2026, 4, 15⟩, ⟨2026, 4, 15⟩, ⟨2026, 4, 25⟩⟩ := by
  constructor
  · intro card ref hv
    obtain ⟨h1, h2, _, _⟩ := hv
    unfold invoice_cycle_for_card billingCycleSpec build_date_with_day
    rw [shift_month_neg_one ref.year ref.month h1 h2,
      shift_month_pos_one ref.year ref.month h1 h2]
  · decide

/-- C3 witness: the refinement instantiated at the example card and the
valid date 20 March 2026. -/
theorem C3_billing_cycle_witness :
    invoice_cycle_for_card exCard ⟨2026, 3, 20⟩ =
      billingCycleSpec exCard.invoice_close_day exCard.payment_due_day ⟨2026, 3, 20⟩ :=
  C3_billing_cycle.1 exCard ⟨2026, 3, 20⟩ (by decide)

/-- C6: for every candidate date covered by an active `skip` override of a
recurring payment, occurrence generation creates no occurrence on that
date — whatever other overrides (e.g. `change_amount`) cover it and in
whatever position the skip override sits in the override list. -/
theorem C6_skip_override_wins (db : DB) (pid uid : Nat) (up : Option Date)
    (today d : Date) (fuel : Nat) (g : List PaymentOccurrence) (db2 : DB) (c : Bool)
    (ovr : RecurringPaymentOverride)
    (hgen : generate_recurring_occurrences db pid uid up today fuel = some (g, db2, c))
    (hmem : ovr ∈ db.overrides) (hpid : ovr.payment_id = pid)
    (hactv : ovr.is_active = true) (htype : ovr.override_type = "skip")
    (haff : is_date_affected d ovr = true) :
    ∀ o ∈ g, o.scheduled_date ≠ d := by
  intro o ho hod
  cases hfind : db.payments.find? (fun q => decide (q.id = pid ∧ q.user_id = uid ∧
      q.payment_type = PaymentType.recurring)) with
  | none =>
    unfold generate_recurring_occurrences at hgen
    rw [hfind] at hgen
    simp only [Option.some.injEq, Prod.mk.injEq] at hgen
    rw [← hgen.1] at ho
    simp at ho
  | some p =>
    by_cases hact : p.is_active = false
    · unfold generate_recurring_occurrences at hgen
      rw [hfind] at hgen
      dsimp only at hgen
      rw [if_pos hact] at hgen
      simp only [Option.some.injEq, Prod.mk.injEq] at hgen
      rw [← hgen.1] at ho
      simp at ho
    · have hact' : p.is_active = true := by
        cases hb : p.is_active
        · exact absurd hb hact
        · rfl
      cases hstart : p.start_date with
      | none =>
        unfold generate_recurring_occurrences at hgen
        rw [hfind] at hgen
        dsimp only at hgen
        rw [if_neg hact, hstart] at hgen
        simp at hgen
      | some s =>
        rw [generate_spec hfind hact' hstart] at hgen
        simp only [Option.some.injEq, Prod.mk.injEq] at hgen
        rw [← hgen.1] at ho
        unfold gen_run at ho
        have hm := genLoop_mem pid p.amount p.frequency (gen_overrides db pid)
          (gen_existing db pid) (gen_bound p (up.getD (today.addDays 365))) fuel s
          db.next_occurrence_id o ho
        have hskip := @apply_overrides_skip o.scheduled_date (gen_overrides db pid)
          ⟨ovr, List.mem_filter.mpr ⟨hmem, by simp [hpid, hactv]⟩, by rw [hod]; exact haff,
            htype⟩ p.amount
        rw [hm.2.2.2.2] at hskip
        exact Bool.false_ne_true hskip

/-- C6 witness: in the concrete state where a change-amount override and a
skip override both cover 2026-01-15 (skip listed second), the first
generated occurrence of the weekly payment is not on 2026-01-15. -/
theorem C6_skip_witness :
    (newOcc 4 1 ⟨2026, 1, 1⟩ 2500).scheduled_date ≠ ⟨2026, 1, 15⟩ := by
  refine C6_skip_override_wins c6DB 4 1 (some ⟨2026, 2, 1⟩) exToday ⟨2026, 1, 15⟩ 50
    ((generate_recurring_occurrences c6DB 4 1 (some ⟨2026, 2, 1⟩) exToday 50).getD
      ([], c6DB, true)).1
    ((generate_recurring_occurrences c6DB 4 1 (some ⟨2026, 2, 1⟩) exToday 50).getD
      ([], c6DB, true)).2.1
    ((generate_recurring_occurrences c6DB 4 1 (some ⟨2026, 2, 1⟩) exToday 50).getD
      ([], c6DB, true)).2.2
    c6Skip (by decide) (by decide) (by decide) (by decide) (by decide) (by decide)
    (newOcc 4 1 ⟨2026, 1, 1⟩ 2500) (by decide)

/-- C8: a card with no `default_payment_account_id` whose owner has no
active bank account makes `syncPlannedPayments` a no-op on Payment rows:
payments and occurrences are unchanged and the call reports success
(no error). -/
theorem C8_no_account_sync_noop (db : DB) (cid uid : Nat) (card : CreditCard)
    (today : Date)
    (hcard : get_card db cid uid = some card)
    (hnone : card.default_payment_account_id = none)
    (hnoacct : ∀ a ∈ db.bank_accounts, a.user_id = uid → a.is_active = false) :
    (sync_planned_payments db cid uid today).1.payments = db.payments ∧
    (sync_planned_payments db cid uid today).1.occurrences = db.occurrences ∧
    (sync_planned_payments db cid uid today).2 = true := by
  have hfilter : ∀ (extra : BankAccount → Prop) (hdec : DecidablePred extra),
      db.bank_accounts.filter
        (fun a => decide (a.user_id = uid ∧ a.is_active = true ∧ extra a)) = [] := by
    intro extra hdec
    rw [List.filter_eq_nil_iff]
    intro a ha
    simp only [decide_eq_true_eq, not_and]
    intro hu hact
    rw [hnoacct a ha hu] at hact
    exact absurd hact (by simp)
  have hres : resolve_default_payment_account_id db uid none = none := by
    unfold resolve_default_payment_account_id
    have h1 : db.bank_accounts.filter (fun a => decide (a.user_id = uid ∧
        a.is_active = true ∧ a.account_type = "checking")) = [] :=
      hfilter (fun a => a.account_type = "checking") (by infer_instance)
    have h2 : db.bank_accounts.filter (fun a => decide (a.user_id = uid ∧
        a.is_active = true)) = [] := by
      rw [List.filter_eq_nil_iff]
      intro a ha
      simp only [decide_eq_true_eq, not_and]
      intro hu hact
      rw [hnoacct a ha hu] at hact
      exact absurd hact (by simp)
    rw [h1, h2]
    rfl
  unfold sync_planned_payments
  rw [hcard]
  dsimp only
  rw [hnone]
  simp only [Option.getD_none, ite_true]
  rw [hres]
  unfold sync_planned_payments_card
  dsimp only
  simp only [Option.getD_none, ite_true]
  exact ⟨rfl, rfl, trivial⟩

/-- C8 witness: the concrete card with no default account and only an
inactive bank account — the synchronizer leaves payments untouched and
returns success. -/
theorem C8_no_account_witness :
    (sync_planned_payments c8DB 1 1 exToday).1.payments = c8DB.payments ∧
    (sync_planned_payments c8DB 1 1 exToday).2 = true := by
  have h := C8_no_account_sync_noop c8DB 1 1 c8Card exToday (by decide) rfl (by decide)
  exact ⟨h.1, h.2.2⟩

theorem find?_append_of_none {α : Type} {p : α → Bool} {l1 l2 : List α}
    (h : l1.find? p = none) : (l1 ++ l2).find? p = l2.find? p := by
  induction l1 with
  | nil => rfl
  | cons a rest ih =>
    simp only [List.cons_append]
    cases hp : p a with
    | true =>
      rw [List.find?_cons_of_pos _ hp] at h
      exact absurd h (by simp)
    | false =>
      rw [List.find?_cons_of_neg _ (by simp [hp])] at h
      rw [List.find?_cons_of_neg _ (by simp [hp])]
      exact ih h

/-- C9: creating a recurring payment immediately creates exactly one initial
occurrence with scheduled_date and due_date equal to start_date, amount
equal to the base amount and status `scheduled`; sets next_due_date to one
frequency step past start_date; and a later `generateOccurrences` run on
the resulting state never inserts another occurrence at start_date (the
initial occurrence is in the generator's existing-dates set).  The
freshness hypotheses say the autoincrement id about to be assigned is
unused, which the store guarantees. -/
theorem C9_create_recurring_initial (db : DB) (uid : Nat) (d : RecurringPaymentCreate)
    (hfreshO : ∀ o ∈ db.occurrences, o.payment_id ≠ db.next_payment_id)
    (hfreshP : ∀ q ∈ db.payments, q.id ≠ db.next_payment_id) :
    ((create_recurring_payment db uid d).2.occurrences.filter
        (fun o => decide (o.payment_id = (create_recurring_payment db uid d).1.id))) =
      [⟨db.next_occurrence_id, db.next_payment_id, d.start_date, some d.start_date,
        d.amount, PaymentStatus.scheduled⟩] ∧
    (create_recurring_payment db uid d).1.next_due_date =
      some (calculate_next_due_date d.start_date (some d.frequency.value)) ∧
    ∀ (up : Option Date) (today : Date) (fuel : Nat) (g : List PaymentOccurrence)
      (db2 : DB) (c : Bool),
      generate_recurring_occurrences (create_recurring_payment db uid d).2
          db.next_payment_id uid up today fuel = some (g, db2, c) →
      ∀ o ∈ g, o.scheduled_date ≠ d.start_date := by
  refine ⟨?_, rfl, ?_⟩
  · unfold create_recurring_payment
    dsimp only
    rw [List.filter_append]
    have h1 : db.occurrences.filter
        (fun o => decide (o.payment_id = db.next_payment_id)) = [] := by
      rw [List.filter_eq_nil_iff]
      intro o ho
      simp only [decide_eq_true_eq]
      exact hfreshO o ho
    rw [h1]
    simp
  · intro up today fuel g db2 c hg o ho hod
    have hnil : (create_recurring_payment db uid d).2.payments =
        db.payments ++ [(create_recurring_payment db uid d).1] := rfl
    have hfind : (create_recurring_payment db uid d).2.payments.find?
        (fun q => decide (q.id = db.next_payment_id ∧ q.user_id = uid ∧
          q.payment_type = PaymentType.recurring)) =
        some (create_recurring_payment db uid d).1 := by
      rw [hnil, find?_append_of_none]
      · apply List.find?_cons_of_pos
        simp [create_recurring_payment]
      · rw [List.find?_eq_none]
        intro q hq
        simp only [decide_eq_true_eq, not_and]
        intro hid
        exact absurd hid (hfreshP q hq)
    rw [generate_spec hfind rfl rfl] at hg
    simp only [Option.some.injEq, Prod.mk.injEq] at hg
    rw [← hg.1] at ho
    unfold gen_run at ho
    have hm := genLoop_mem db.next_payment_id (create_recurring_payment db uid d).1.amount
      (create_recurring_payment db uid d).1.frequency
      (gen_overrides (create_recurring_payment db uid d).2 db.next_payment_id)
      (gen_existing (create_recurring_payment db uid d).2 db.next_payment_id)
      (gen_bound (create_recurring_payment db uid d).1 (up.getD (today.addDays 365)))
      fuel d.start_date (create_recurring_payment db uid d).2.next_occurrence_id o ho
    apply hm.2.2.2.1
    rw [hod]
    unfold gen_existing
    apply List.mem_map.mpr
    refine ⟨⟨db.next_occurrence_id, db.next_payment_id, d.start_date, some d.start_date,
      d.amount, PaymentStatus.scheduled⟩, ?_, rfl⟩
    apply List.mem_filter.mpr
    refine ⟨?_, by simp⟩
    exact List.mem_append.mpr (Or.inr (List.mem_singleton.mpr rfl))

/-- C9 witness: creating the quarterly payment starting 2026-01-31 in an
empty store yields exactly the one initial occurrence at 2026-01-31 and a
next due date of 2026-04-30 (one quarter later, clamped). -/
theorem C9_create_witness :
    ((create_recurring_payment c9DB 1 c9Data).2.occurrences.filter
        (fun o => decide (o.payment_id = (create_recurring_payment c9DB 1 c9Data).1.id))) =
      [⟨1, 1, ⟨2026, 1, 31⟩, some ⟨2026, 1, 31⟩, 4500, PaymentStatus.scheduled⟩] ∧
    (create_recurring_payment c9DB 1 c9Data).1.next_due_date = some ⟨2026, 4, 30⟩ := by
  have h := C9_create_recurring_initial c9DB 1 c9Data (by decide) (by decide)
  refine ⟨h.1, ?_⟩
  rw [h.2.1]
  decide

theorem genLoop_terminates (pid : Nat) (b : Int) {fs : String}
    (hrec : RecognizedFreq fs) (ov : List RecurringPaymentOverride)
    (ex : List Date) (bound : Date) (hbv : bound.Valid) :
    ∀ (n : Nat) (cur : Date) (acc : List PaymentOccurrence) (nid : Nat),
    cur.Valid → bound.mu < cur.mu + n →
    (genLoop pid b (some fs) ov ex bound n cur acc nid).2.2 = true := by
  intro n
  induction n with
  | zero =>
    intro cur acc nid hv hm
    have hnle : ¬ cur ≤ bound := fun hle => absurd (Date.mu_mono hv hbv hle) (by omega)
    simp [genLoop, hnle]
  | succ n ih =>
    intro cur acc nid hv hm
    have hnv := next_due_valid hrec hv
    have hnmu := next_due_mu hrec hv
    rw [genLoop]
    by_cases h1 : cur ≤ bound
    · rw [if_pos h1]
      by_cases h2 : cur ∈ ex
      · rw [if_pos h2]
        exact ih _ _ _ hnv (by omega)
      · rw [if_neg h2]
        by_cases h3 : (apply_overrides cur ov b).1 = true
        · rw [if_pos h3]
          exact ih _ _ _ hnv (by omega)
        · rw [if_neg h3]
          exact ih _ _ _ hnv (by omega)
    · rw [if_neg h1]

theorem genLoop_stuck (pid : Nat) (b : Int) (f : Option String)
    (ov : List RecurringPaymentOverride) (ex : List Date) (bound cur : Date)
    (hfix : calculate_next_due_date cur f = cur) (hle : cur ≤ bound) :
    ∀ (fuel : Nat) (acc : List PaymentOccurrence) (nid : Nat),
    (genLoop pid b f ov ex bound fuel cur acc nid).2.2 = false := by
  intro fuel
  induction fuel with
  | zero =>
    intro acc nid
    simp [genLoop, hle]
  | succ n ih =>
    intro acc nid
    rw [genLoop, if_pos hle, hfix]
    by_cases h2 : cur ∈ ex
    · rw [if_pos h2]
      exact ih _ _
    · rw [if_neg h2]
      by_cases h3 : (apply_overrides cur ov b).1 = true
      · rw [if_pos h3]
        exact ih _ _
      · rw [if_neg h3]
        exact ih _ _

/-- C10: (1) for each of the five recognized frequencies the next-due-date
calculation returns a strictly later date (on valid dates), so (2) the
generation loop strictly advances and, for every valid bound, some finite
fuel completes it (the while loop terminates for every upToDate); (3) any
unrecognized frequency value (including NULL) returns the input date
unchanged, and (4) under such a frequency the loop condition never becomes
false: the loop runs forever (no fuel completes it). -/
theorem C10_next_due_progress :
    (∀ (dt : Date) (fs : String), dt.Valid → RecognizedFreq fs →
      dt < calculate_next_due_date dt (some fs)) ∧
    (∀ (pid : Nat) (b : Int) (fs : String) (ov : List RecurringPaymentOverride)
        (ex : List Date) (bound start : Date) (nid : Nat),
      RecognizedFreq fs → start.Valid → bound.Valid →
      ∃ fuel, (genLoop pid b (some fs) ov ex bound fuel start [] nid).2.2 = true) ∧
    (∀ (dt : Date) (f : Option String),
      (∀ fs, f = some fs → ¬ RecognizedFreq fs) →
      calculate_next_due_date dt f = dt) ∧
    (∀ (pid : Nat) (b : Int) (f : Option String) (ov : List RecurringPaymentOverride)
        (ex : List Date) (bound start : Date) (nid fuel : Nat),
      calculate_next_due_date start f = start → start ≤ bound →
      (genLoop pid b f ov ex bound fuel start [] nid).2.2 = false) := by
  refine ⟨?_, ?_, ?_, ?_⟩
  · intro dt fs hv hrec
    exact next_due_lt hrec hv
  · intro pid b fs ov ex bound start nid hrec hsv hbv
    refine ⟨(bound.mu - start.mu + 1).toNat, ?_⟩
    exact genLoop_terminates pid b hrec ov ex bound hbv _ start [] nid hsv (by omega)
  · intro dt f hf
    unfold calculate_next_due_date
    rw [if_neg, if_neg, if_neg, if_neg, if_neg]
    · intro he
      exact hf "yearly" he (by unfold RecognizedFreq; tauto)
    · intro he
      exact hf "quarterly" he (by unfold RecognizedFreq; tauto)
    · intro he
      exact hf "monthly" he (by unfold RecognizedFreq; tauto)
    · intro he
      exact hf "weekly" he (by unfold RecognizedFreq; tauto)
    · intro he
      exact hf "daily" he (by unfold RecognizedFreq; tauto)
  · intro pid b f ov ex bound start nid fuel hfix hle
    exact genLoop_stuck pid b f ov ex bound start hfix hle fuel [] nid

/-- C10 witness: the monthly step from 2026-01-31 is strictly later; fuel 4
completes the loop from 2026-01-01 to bound 2026-01-03 with daily steps; a
NULL frequency leaves the date unchanged; and with it the loop from
2026-01-01 never completes (fuel 5 shown). -/
theorem C10_progress_witness :
    ((⟨2026, 1, 31⟩ : Date) < calculate_next_due_date ⟨2026, 1, 31⟩ (some "monthly")) ∧
    (∃ fuel, (genLoop 1 100 (some "daily") [] [] ⟨2026, 1, 3⟩ fuel ⟨2026, 1, 1⟩ [] 1).2.2 =
      true) ∧
    (calculate_next_due_date ⟨2026, 3, 15⟩ none = ⟨2026, 3, 15⟩) ∧
    ((genLoop 1 100 none [] [] ⟨2026, 1, 3⟩ 5 ⟨2026, 1, 1⟩ [] 1).2.2 = false) := by
  refine ⟨?_, ?_, ?_, ?_⟩
  · exact C10_next_due_progress.1 ⟨2026, 1, 31⟩ "monthly" (by decide) (by decide)
  · exact C10_next_due_progress.2.1 1 100 "daily" [] [] ⟨2026, 1, 3⟩ ⟨2026, 1, 1⟩ 1
      (by decide) (by decide) (by decide)
  · exact C10_next_due_progress.2.2.1 ⟨2026, 3, 15⟩ none (by intro fs h; cases h)
  · exact C10_next_due_progress.2.2.2 1 100 none [] [] ⟨2026, 1, 3⟩ ⟨2026, 1, 1⟩ 1 5
      (by decide) (by decide)

/-- C4: for a recurring, active payment (valid start date, recognized
frequency), `generateOccurrences` preserves the at-most-one-occurrence-per
(payment, scheduled_date) invariant, and a second run with the same
`upToDate` inserts nothing: it returns an empty list and leaves the
database exactly as the first run left it. -/
theorem C4_generate_idempotent (db : DB) (pid uid : Nat) (p : Payment) (fs : String)
    (s : Date) (up : Option Date) (today : Date) (fuel : Nat)
    (g1 g2 : List PaymentOccurrence) (db1 db2 : DB) (c1 c2 : Bool)
    (hfind : db.payments.find? (fun q => decide (q.id = pid ∧ q.user_id = uid ∧
        q.payment_type = PaymentType.recurring)) = some p)
    (hact : p.is_active = true) (hfreq : p.frequency = some fs)
    (hrec : RecognizedFreq fs) (hstart : p.start_date = some s) (hsv : s.Valid)
    (hr1 : generate_recurring_occurrences db pid uid up today fuel = some (g1, db1, c1))
    (hr2 : generate_recurring_occurrences db1 pid uid up today fuel = some (g2, db2, c2)) :
    g2 = [] ∧ db2 = db1 ∧ (OccUnique db.occurrences → OccUnique db1.occurrences) := by
  rw [generate_spec hfind hact hstart] at hr1
  simp only [Option.some.injEq, Prod.mk.injEq] at hr1
  obtain ⟨hg1, hdb1, hc1⟩ := hr1
  subst hdb1
  have hfind2 : ({ db with
        occurrences := (db.occurrences ++ (gen_run db pid p s up today fuel).1)
        next_occurrence_id := (gen_run db pid p s up today fuel).2.1 } : DB).payments.find?
      (fun q => decide (q.id = pid ∧ q.user_id = uid ∧
        q.payment_type = PaymentType.recurring)) = some p := hfind
  rw [generate_spec hfind2 hact hstart] at hr2
  simp only [Option.some.injEq, Prod.mk.injEq] at hr2
  obtain ⟨hg2, hdb2, hc2⟩ := hr2
  have hmem1 := fun o ho => genLoop_mem pid p.amount p.frequency (gen_overrides db pid)
    (gen_existing db pid) (gen_bound p (up.getD (today.addDays 365))) fuel s
    db.next_occurrence_id o ho
  have hex : ∀ d ∈ gen_existing db pid,
      d ∈ gen_existing
        { db with
            occurrences := (db.occurrences ++ (gen_run db pid p s up today fuel).1)
            next_occurrence_id := (gen_run db pid p s up today fuel).2.1 } pid := by
    intro d hd
    unfold gen_existing at hd ⊢
    rcases List.mem_map.mp hd with ⟨o, hof, hos⟩
    refine List.mem_map.mpr ⟨o, ?_, hos⟩
    rcases List.mem_filter.mp hof with ⟨hom, hop⟩
    exact List.mem_filter.mpr ⟨List.mem_append.mpr (Or.inl hom), hop⟩
  have hgen : ∀ o ∈ (genLoop pid p.amount p.frequency (gen_overrides db pid)
      (gen_existing db pid) (gen_bound p (up.getD (today.addDays 365))) fuel s []
      db.next_occurrence_id).1,
      o.scheduled_date ∈ gen_existing
        { db with
            occurrences := (db.occurrences ++ (gen_run db pid p s up today fuel).1)
            next_occurrence_id := (gen_run db pid p s up today fuel).2.1 } pid := by
    intro o ho
    unfold gen_existing
    refine List.mem_map.mpr ⟨o, ?_, rfl⟩
    refine List.mem_filter.mpr ⟨?_, by simp [(hmem1 o ho).1]⟩
    exact List.mem_append.mpr (Or.inr ho)
  have hL := genLoop_second pid p.amount p.frequency (gen_overrides db pid)
    (gen_bound p (up.getD (today.addDays 365))) hex fuel s db.next_occurrence_id
    ((gen_run db pid p s up today fuel).2.1) hgen
  refine ⟨?_, ?_, ?_⟩
  · rw [← hg2]
    exact hL.1
  · rw [← hdb2]
    have he1 : (gen_run
        { db with
            occurrences := (db.occurrences ++ (gen_run db pid p s up today fuel).1)
            next_occurrence_id := (gen_run db pid p s up today fuel).2.1 }
        pid p s up today fuel).1 = [] := hL.1
    have he2 : (gen_run
        { db with
            occurrences := (db.occurrences ++ (gen_run db pid p s up today fuel).1)
            next_occurrence_id := (gen_run db pid p s up today fuel).2.1 }
        pid p s up today fuel).2.1 = (gen_run db pid p s up today fuel).2.1 := hL.2
    rw [he1, he2]
    simp
  · intro hu
    show OccUnique (db.occurrences ++ (gen_run db pid p s up today fuel).1)
    unfold OccUnique at hu ⊢
    rw [List.pairwise_append]
    refine ⟨hu, ?_, ?_⟩
    · have hord := (genLoop_ordered pid p.amount hrec (gen_overrides db pid)
        (gen_existing db pid) (gen_bound p (up.getD (today.addDays 365))) fuel s
        db.next_occurrence_id hsv).2
      have hord2 : (gen_run db pid p s up today fuel).1.Pairwise
          (fun a b => a.scheduled_date < b.scheduled_date) := by
        rw [← List.pairwise_map]
        unfold gen_run
        rw [hfreq]
        exact hord
      exact hord2.imp (fun h => fun _ => Date.ne_of_lt_ h)
    · intro a ha b hb hpe heq
      have hbm := hmem1 b hb
      apply hbm.2.2.2.1
      rw [← heq]
      unfold gen_existing
      refine List.mem_map.mpr ⟨a, ?_, rfl⟩
      refine List.mem_filter.mpr ⟨ha, by simp [hpe, hbm.1]⟩

/-- C4 witness: the monthly payment from 2026-01-31 run twice with the same
horizon — the second run returns no occurrences and the same state, and
the first run's state satisfies the per-(payment, date) uniqueness. -/
theorem C4_generate_witness :
    ((generate_recurring_occurrences
        ((generate_recurring_occurrences c2DB 7 1 (some ⟨2026, 4, 30⟩) exToday 100).getD
          ([], c2DB, true)).2.1 7 1 (some ⟨2026, 4, 30⟩) exToday 100).getD
        ([], c2DB, true)).1 = [] ∧
    OccUnique ((generate_recurring_occurrences c2DB 7 1 (some ⟨2026, 4, 30⟩) exToday
        100).getD ([], c2DB, true)).2.1.occurrences := by
  have h := C4_generate_idempotent c2DB 7 1 c2Payment "monthly" ⟨2026, 1, 31⟩
    (some ⟨2026, 4, 30⟩) exToday 100
    ((generate_recurring_occurrences c2DB 7 1 (some ⟨2026, 4, 30⟩) exToday 100).getD
      ([], c2DB, true)).1
    ((generate_recurring_occurrences
        ((generate_recurring_occurrences c2DB 7 1 (some ⟨2026, 4, 30⟩) exToday 100).getD
          ([], c2DB, true)).2.1 7 1 (some ⟨2026, 4, 30⟩) exToday 100).getD
        ([], c2DB, true)).1
    ((generate_recurring_occurrences c2DB 7 1 (some ⟨2026, 4, 30⟩) exToday 100).getD
      ([], c2DB, true)).2.1
    ((generate_recurring_occurrences
        ((generate_recurring_occurrences c2DB 7 1 (some ⟨2026, 4, 30⟩) exToday 100).getD
          ([], c2DB, true)).2.1 7 1 (some ⟨2026, 4, 30⟩) exToday 100).getD
        ([], c2DB, true)).2.1
    ((generate_recurring_occurrences c2DB 7 1 (some ⟨2026, 4, 30⟩) exToday 100).getD
      ([], c2DB, true)).2.2
    ((generate_recurring_occurrences
        ((generate_recurring_occurrences c2DB 7 1 (some ⟨2026, 4, 30⟩) exToday 100).getD
          ([], c2DB, true)).2.1 7 1 (some ⟨2026, 4, 30⟩) exToday 100).getD
        ([], c2DB, true)).2.2
    (by decide) (by decide) rfl (by decide) rfl (by decide) (by decide) (by decide)
  exact ⟨h.1, h.2.2 (by decide)⟩

/-- C5: every line of a statement summary is classified by destination —
a line whose parent payment targets the card is a `payment` with
signed_amount = −amount, any other line is a `charge` with
signed_amount = +amount; the two totals are the sums over the respective
lines; statement_balance = charges_total − payments_total; the transaction
list is sorted by transaction date ascending; and the concrete one-charge
(120.00) one-payment (70.00) cycle yields balance 50.00 with 2
transactions. -/
theorem C5_statement_summary :
    (∀ (db : DB) (cid uid : Nat) (ref : Date) (s : StatementSummary),
      get_statement_summary db cid uid ref = some s →
      (∀ t ∈ s.transactions, ∃ p ∈ db.payments, p.id = t.payment_id ∧
        ((isCardDestination cid p ∧ t.direction = "payment" ∧
            t.signed_amount = -t.amount) ∨
         (¬ isCardDestination cid p ∧ t.direction = "charge" ∧
            t.signed_amount = t.amount))) ∧
      s.charges_total = ((s.transactions.filter
          (fun t => decide (t.direction = "charge"))).map (fun t => t.amount)).sum ∧
      s.payments_total = ((s.transactions.filter
          (fun t => decide (t.direction = "payment"))).map (fun t => t.amount)).sum ∧
      s.statement_balance = s.charges_total - s.payments_total ∧
      s.transactions.Pairwise (fun a b => a.transaction_date ≤ b.transaction_date)) ∧
    (get_statement_summary c5DB 1 1 ⟨2026, 3, 20⟩).map
        (fun s => (s.statement_balance, s.transaction_count)) = some (5000, 2) := by
  constructor
  · intro db cid uid ref s hs
    unfold get_statement_summary at hs
    cases hc : get_card db cid uid with
    | none =>
      rw [hc] at hs
      exact absurd hs (by simp)
    | some card =>
      rw [hc] at hs
      dsimp only at hs
      cases hcy : get_invoice_cycle db cid uid ref with
      | none =>
        rw [hcy] at hs
        exact absurd hs (by simp)
      | some cycle =>
        rw [hcy] at hs
        dsimp only at hs
        rw [Option.some.injEq] at hs
        subst hs
        dsimp only
        have hperm := List.perm_insertionSort txnLe
          (((db.occurrences.filterMap (fun o =>
              (db.payments.find? (fun p => decide (p.id = o.payment_id))).map
                (fun p => (o, p)))).filter
            (fun op => decide (op.2.user_id = uid ∧
              cycle.cycle_start_date ≤ op.1.scheduled_date ∧
              op.1.scheduled_date ≤ cycle.cycle_end_date ∧
              statusLive op.1.status ∧ referencesCard cid op.2))).map
            (fun op => occTxn cid op.1 op.2) ++
          (db.payments.filter (fun p => decide (p.user_id = uid ∧
            ¬ p.id ∈ ((db.occurrences.filterMap (fun o =>
              (db.payments.find? (fun p => decide (p.id = o.payment_id))).map
                (fun p => (o, p)))).filter
              (fun op => decide (op.2.user_id = uid ∧
                cycle.cycle_start_date ≤ op.1.scheduled_date ∧
                op.1.scheduled_date ≤ cycle.cycle_end_date ∧
                statusLive op.1.status ∧ referencesCard cid op.2))).map
              (fun op => op.2.id) ∧
            dueWithin p.due_date cycle.cycle_start_date cycle.cycle_end_date ∧
            statusLive p.status ∧ referencesCard cid p))).map
            (fun p => paymentTxn cid ref p))
        refine ⟨?_, ?_, ?_, rfl, ?_⟩
        · intro t ht
          rw [List.mem_insertionSort] at ht
          rcases List.mem_append.mp ht with hocc | hot
          · rcases List.mem_map.mp hocc with ⟨op, hop, hteq⟩
            rcases List.mem_filter.mp hop with ⟨hop1, -⟩
            rcases List.mem_filterMap.mp hop1 with ⟨o0, -, hmapeq⟩
            cases hf : db.payments.find? (fun q => decide (q.id = o0.payment_id)) with
            | none =>
              rw [hf] at hmapeq
              exact absurd hmapeq (by simp)
            | some q =>
              rw [hf] at hmapeq
              simp only [Option.map_some', Option.some.injEq] at hmapeq
              have hq : op.2 = q := by rw [← hmapeq]
              refine ⟨op.2, by rw [hq]; exact List.mem_of_find?_eq_some hf, ?_⟩
              rw [← hteq]
              unfold occTxn
              by_cases hdest : isCardDestination cid op.2
              · rw [if_pos hdest]
                exact ⟨rfl, Or.inl ⟨hdest, rfl, rfl⟩⟩
              · rw [if_neg hdest]
                exact ⟨rfl, Or.inr ⟨hdest, rfl, rfl⟩⟩
          · rcases List.mem_map.mp hot with ⟨q, hq, hteq⟩
            rcases List.mem_filter.mp hq with ⟨hqm, -⟩
            refine ⟨q, hqm, ?_⟩
            rw [← hteq]
            unfold paymentTxn
            by_cases hdest : isCardDestination cid q
            · rw [if_pos hdest]
              exact ⟨rfl, Or.inl ⟨hdest, rfl, rfl⟩⟩
            · rw [if_neg hdest]
              exact ⟨rfl, Or.inr ⟨hdest, rfl, rfl⟩⟩
        · exact (((hperm.filter _).map _).sum_eq).symm
        · exact (((hperm.filter _).map _).sum_eq).symm
        · exact List.sorted_insertionSort txnLe _
  · decide

/-- C5 witness: the general statement-summary facts instantiated at the
concrete one-charge one-payment state — the balance equation holds there. -/
theorem C5_statement_witness :
    ((get_statement_summary c5DB 1 1 ⟨2026, 3, 20⟩).getD
        ⟨1, 1, ⟨2026, 3, 20⟩, ⟨2026, 3, 20⟩, ⟨2026, 3, 20⟩, ⟨2026, 3, 20⟩, ⟨2026, 3, 20⟩,
          0, 0, 0, 0, []⟩).statement_balance =
      ((get_statement_summary c5DB 1 1 ⟨2026, 3, 20⟩).getD
        ⟨1, 1, ⟨2026, 3, 20⟩, ⟨2026, 3, 20⟩, ⟨2026, 3, 20⟩, ⟨2026, 3, 20⟩, ⟨2026, 3, 20⟩,
          0, 0, 0, 0, []⟩).charges_total -
      ((get_statement_summary c5DB 1 1 ⟨2026, 3, 20⟩).getD
        ⟨1, 1, ⟨2026, 3, 20⟩, ⟨2026, 3, 20⟩, ⟨2026, 3, 20⟩, ⟨2026, 3, 20⟩, ⟨2026, 3, 20⟩,
          0, 0, 0, 0, []⟩).payments_total := by
  have h := (C5_statement_summary.1 c5DB 1 1 ⟨2026, 3, 20⟩
    ((get_statement_summary c5DB 1 1 ⟨2026, 3, 20⟩).getD
      ⟨1, 1, ⟨2026, 3, 20⟩, ⟨2026, 3, 20⟩, ⟨2026, 3, 20⟩, ⟨2026, 3, 20⟩, ⟨2026, 3, 20⟩,
        0, 0, 0, 0, []⟩) (by decide)).2.2.2.1
  exact h

theorem planned_by_due_spec {existing : List Payment} {cid : Nat} {d : Date}
    {pl : Payment} (h : planned_by_due existing cid d = some pl) :
    pl ∈ existing ∧ pl.notes = some (planned_note cid) ∧ pl.due_date = some d := by
  unfold planned_by_due at h
  have hmem := List.mem_of_mem_getLast? h
  rcases List.mem_filter.mp hmem with ⟨h1, h2⟩
  rw [decide_eq_true_eq] at h2
  exact ⟨h1, h2⟩

theorem payment_id_symm : Symmetric (fun a b : Payment => a.id ≠ b.id) :=
  fun _ _ h he => h he.symm

theorem ne_id_of_planned {card : CreditCard} {existing orig : List Payment}
    (hex : ∀ p ∈ existing, p ∈ orig)
    (hids : orig.Pairwise (fun a b => a.id ≠ b.id))
    {u : Payment} (huo : u ∈ orig) (hun : u.notes ≠ some (planned_note card.id))
    {d : Date} {pl : Payment}
    (hpl : planned_by_due existing card.id d = some pl) :
    u.id ≠ pl.id ∧ pl ∈ orig := by
  have hs := planned_by_due_spec hpl
  have hplo : pl ∈ orig := hex pl hs.1
  have hne : u ≠ pl := fun he => hun (by rw [he]; exact hs.2.1)
  exact ⟨hids.forall payment_id_symm huo hplo hne, hplo⟩

theorem singleton_of_length_le_one {α : Type} {l : List α} {a : α}
    (hl : l.length ≤ 1) (ha : a ∈ l) : l = [a] := by
  cases l with
  | nil => simp at ha
  | cons b t =>
    cases t with
    | nil =>
      rcases List.mem_singleton.mp ha with h
      rw [h]
    | cons c t2 => simp at hl

theorem foldl_inv {β : Type} (step : DB → β → DB) (Inv : DB → Prop)
    (hstep : ∀ (x : β) (dbc : DB), Inv dbc → Inv (step dbc x)) :
    ∀ (l : List β) (dbc : DB), Inv dbc → Inv (l.foldl step dbc) := by
  intro l
  induction l with
  | nil => intro dbc h; exact h
  | cons x rest ih =>
    intro dbc h
    exact ih _ (hstep x dbc h)

/-- One reconciliation step keeps the user payment present and keeps every
payment due on the blocked date `D` an original row. -/
theorem reconcile_step_P (card : CreditCard) (existing : List Payment)
    (desired : Date → Int) (orig : List Payment) (D : Date) (u : Payment)
    (hex : ∀ p ∈ existing, p ∈ orig)
    (hids : orig.Pairwise (fun a b => a.id ≠ b.id))
    (huo : u ∈ orig) (hun : u.notes ≠ some (planned_note card.id))
    (hbD : blockedDue existing card.id D)
    (due : Date) (dbc : DB)
    (hu : u ∈ dbc.payments)
    (hP : ∀ p ∈ dbc.payments, p.due_date = some D → p ∈ orig) :
    u ∈ (reconcile_step card existing desired dbc due).payments ∧
    (∀ p ∈ (reconcile_step card existing desired dbc due).payments,
        p.due_date = some D → p ∈ orig) := by
  unfold reconcile_step
  by_cases hb : blockedDue existing card.id due
  · rw [if_pos hb]
    cases hpl : planned_by_due existing card.id due with
    | none => exact ⟨hu, hP⟩
    | some pl =>
      dsimp only
      obtain ⟨hnid, hplo⟩ := ne_id_of_planned hex hids huo hun hpl
      constructor
      · refine List.mem_filter.mpr ⟨hu, ?_⟩
        rw [decide_eq_true_eq]
        exact hnid
      · intro p hp hpd
        exact hP p (List.mem_of_mem_filter hp) hpd
  · rw [if_neg hb]
    cases hpl : planned_by_due existing card.id due with
    | some pl =>
      dsimp only
      obtain ⟨hnid, hplo⟩ := ne_id_of_planned hex hids huo hun hpl
      by_cases hd : desired due ≤ 0
      · rw [if_pos hd]
        constructor
        · refine List.mem_filter.mpr ⟨hu, ?_⟩
          rw [decide_eq_true_eq]
          exact hnid
        · intro p hp hpd
          exact hP p (List.mem_of_mem_filter hp) hpd
      · rw [if_neg hd]
        constructor
        · exact List.mem_map.mpr ⟨u, hu, if_neg hnid⟩
        · intro p hp hpd
          rcases List.mem_map.mp hp with ⟨q, hq, hfq⟩
          by_cases hqid : q.id = pl.id
          · have hqd : q.due_date = some D := by
              rw [← hfq, if_pos hqid] at hpd
              exact hpd
            have hqo : q ∈ orig := hP q hq hqd
            have hqpl : q = pl := by
              by_contra hne
              exact hids.forall payment_id_symm hqo (hex pl (planned_by_due_spec hpl).1)
                hne hqid
            have hdueD : due = D := by
              have h1 := (planned_by_due_spec hpl).2.2
              rw [hqpl] at hqd
              rw [h1] at hqd
              exact Option.some.inj hqd
            rw [hdueD] at hb
            exact absurd hbD hb
          · rw [← hfq, if_neg hqid] at hpd ⊢
            exact hP q hq hpd
    | none =>
      dsimp only
      by_cases hd : desired due ≤ 0
      · rw [if_pos hd]
        exact ⟨hu, hP⟩
      · rw [if_neg hd]
        constructor
        · exact List.mem_append.mpr (Or.inl hu)
        · intro p hp hpd
          rcases List.mem_append.mp hp with hl | hr
          · exact hP p hl hpd
          · rcases List.mem_singleton.mp hr with he
            rw [he] at hpd
            have hdueD : due = D := Option.some.inj hpd
            rw [hdueD] at hb
            exact absurd hbD hb

/-- After the blocked date `D` has been processed, no step re-introduces a
placeholder at `D` (and the user payment stays present). -/
theorem reconcile_step_Q (card : CreditCard) (existing : List Payment)
    (desired : Date → Int) (orig : List Payment) (D : Date) (u : Payment)
    (hex : ∀ p ∈ existing, p ∈ orig)
    (hids : orig.Pairwise (fun a b => a.id ≠ b.id))
    (huo : u ∈ orig) (hun : u.notes ≠ some (planned_note card.id))
    (hbD : blockedDue existing card.id D)
    (due : Date) (dbc : DB)
    (hu : u ∈ dbc.payments)
    (hnpl : ∀ p ∈ dbc.payments, ¬ IsPlaceholderAt card D p)
    (hP : ∀ p ∈ dbc.payments, p.due_date = some D → p ∈ orig) :
    u ∈ (reconcile_step card existing desired dbc due).payments ∧
    (∀ p ∈ (reconcile_step card existing desired dbc due).payments,
        ¬ IsPlaceholderAt card D p) ∧
    (∀ p ∈ (reconcile_step card existing desired dbc due).payments,
        p.due_date = some D → p ∈ orig) := by
  have hstep := reconcile_step_P card existing desired orig D u hex hids huo hun hbD
    due dbc hu hP
  refine ⟨hstep.1, ?_, hstep.2⟩
  unfold reconcile_step at hstep ⊢
  by_cases hb : blockedDue existing card.id due
  · rw [if_pos hb] at hstep ⊢
    cases hpl : planned_by_due existing card.id due with
    | none => exact hnpl
    | some pl =>
      rw [hpl] at hstep
      dsimp only at hstep ⊢
      intro p hp
      exact hnpl p (List.mem_of_mem_filter hp)
  · rw [if_neg hb] at hstep ⊢
    cases hpl : planned_by_due existing card.id due with
    | some pl =>
      rw [hpl] at hstep
      dsimp only at hstep ⊢
      by_cases hd : desired due ≤ 0
      · rw [if_pos hd] at hstep ⊢
        intro p hp
        exact hnpl p (List.mem_of_mem_filter hp)
      · rw [if_neg hd] at hstep ⊢
        intro p hp hplc
        have hpd : p.due_date = some D := hplc.2.2.2.2.1
        have hpo : p ∈ orig := hstep.2 p hp hpd
        rcases List.mem_map.mp hp with ⟨q, hq, hfq⟩
        by_cases hqid : q.id = pl.id
        · have hqd : q.due_date = some D := by
            rw [← hfq, if_pos hqid] at hpd
            exact hpd
          have hqo : q ∈ orig := hP q hq hqd
          have hqpl : q = pl := by
            by_contra hne
            exact hids.forall payment_id_symm hqo (hex pl (planned_by_due_spec hpl).1)
              hne hqid
          have hdueD : due = D := by
            have h1 := (planned_by_due_spec hpl).2.2
            rw [hqpl] at hqd
            rw [h1] at hqd
            exact Option.some.inj hqd
          rw [hdueD] at hb
          exact absurd hbD hb
        · rw [← hfq, if_neg hqid] at hplc
          exact hnpl q hq hplc
    | none =>
      rw [hpl] at hstep
      dsimp only at hstep ⊢
      by_cases hd : desired due ≤ 0
      · rw [if_pos hd] at hstep ⊢
        exact hnpl
      · rw [if_neg hd] at hstep ⊢
        intro p hp hplc
        rcases List.mem_append.mp hp with hl | hr
        · exact hnpl p hl hplc
        · rcases List.mem_singleton.mp hr with he
          have hpd : p.due_date = some D := hplc.2.2.2.2.1
          rw [he] at hpd
          have hdueD : due = D := Option.some.inj hpd
          rw [hdueD] at hb
          exact absurd hbD hb

/-- Processing the blocked date `D` itself deletes the (at most one) live
placeholder at `D` and leaves no placeholder at `D`. -/
theorem reconcile_step_D (card : CreditCard) (existing : List Payment)
    (desired : Date → Int) (orig : List Payment) (D : Date) (u : Payment)
    (hex : ∀ p ∈ existing, p ∈ orig)
    (hids : orig.Pairwise (fun a b => a.id ≠ b.id))
    (huo : u ∈ orig) (hun : u.notes ≠ some (planned_note card.id))
    (hbD : blockedDue existing card.id D)
    (hsub : ∀ p ∈ orig, IsPlaceholderAt card D p →
      planned_by_due existing card.id D = some p)
    (dbc : DB)
    (hu : u ∈ dbc.payments)
    (hP : ∀ p ∈ dbc.payments, p.due_date = some D → p ∈ orig) :
    u ∈ (reconcile_step card existing desired dbc D).payments ∧
    (∀ p ∈ (reconcile_step card existing desired dbc D).payments,
        ¬ IsPlaceholderAt card D p) ∧
    (∀ p ∈ (reconcile_step card existing desired dbc D).payments,
        p.due_date = some D → p ∈ orig) := by
  unfold reconcile_step
  rw [if_pos hbD]
  cases hpl : planned_by_due existing card.id D with
  | none =>
    dsimp only
    refine ⟨hu, ?_, hP⟩
    intro p hp hplc
    have hpo : p ∈ orig := hP p hp hplc.2.2.2.2.1
    have := hsub p hpo hplc
    rw [hpl] at this
    exact absurd this (by simp)
  | some pl =>
    dsimp only
    obtain ⟨hnid, hplo⟩ := ne_id_of_planned hex hids huo hun hpl
    refine ⟨?_, ?_, ?_⟩
    · refine List.mem_filter.mpr ⟨hu, ?_⟩
      rw [decide_eq_true_eq]
      exact hnid
    · intro p hp hplc
      rcases List.mem_filter.mp hp with ⟨hp0, hpne⟩
      rw [decide_eq_true_eq] at hpne
      have hpo : p ∈ orig := hP p hp0 hplc.2.2.2.2.1
      have := hsub p hpo hplc
      rw [hpl] at this
      have hppl : p = pl := (Option.some.inj this).symm
      exact hpne (by rw [hppl])
    · intro p hp hpd
      exact hP p (List.mem_of_mem_filter hp) hpd

/-- Folding the reconciliation over any due-date list containing the
blocked date `D` keeps the user payment and ends with no placeholder at
`D`. -/
theorem reconcile_fold_blocks (card : CreditCard) (existing : List Payment)
    (desired : Date → Int) (orig : List Payment) (D : Date) (u : Payment)
    (hex : ∀ p ∈ existing, p ∈ orig)
    (hids : orig.Pairwise (fun a b => a.id ≠ b.id))
    (huo : u ∈ orig) (hun : u.notes ≠ some (planned_note card.id))
    (hbD : blockedDue existing card.id D)
    (hsub : ∀ p ∈ orig, IsPlaceholderAt card D p →
      planned_by_due existing card.id D = some p) :
    ∀ (l : List Date), D ∈ l → ∀ (dbc : DB),
    u ∈ dbc.payments →
    (∀ p ∈ dbc.payments, p.due_date = some D → p ∈ orig) →
    u ∈ (l.foldl (reconcile_step card existing desired) dbc).payments ∧
    (∀ p ∈ (l.foldl (reconcile_step card existing desired) dbc).payments,
      ¬ IsPlaceholderAt card D p) := by
  intro l
  induction l with
  | nil =>
    intro hmem
    simp at hmem
  | cons due rest ih =>
    intro hmem dbc hu1 hP1
    rw [List.foldl_cons]
    by_cases hdD : due = D
    · subst hdD
      have h2 := reconcile_step_D card existing desired orig due u hex hids huo hun
        hbD hsub dbc hu1 hP1
      have h3 := foldl_inv (reconcile_step card existing desired)
        (fun dbc2 => u ∈ dbc2.payments ∧
          (∀ p ∈ dbc2.payments, ¬ IsPlaceholderAt card due p) ∧
          (∀ p ∈ dbc2.payments, p.due_date = some due → p ∈ orig))
        (fun due2 dbc2 hI => reconcile_step_Q card existing desired orig due u hex hids
          huo hun hbD due2 dbc2 hI.1 hI.2.1 hI.2.2)
        rest _ ⟨h2.1, h2.2.1, h2.2.2⟩
      exact ⟨h3.1, h3.2.1⟩
    · rcases List.mem_cons.mp hmem with he | hr
      · exact absurd he.symm hdD
      · have hp := reconcile_step_P card existing desired orig D u hex hids huo hun
          hbD due dbc hu1 hP1
        exact ih hr _ hp.1 hp.2

/-- C7 (counterexample): the claim's listed blocker conditions (targets the
card as destination, live status, non-marker notes, occupies the desired
due date) are met by a RECURRING payment at 2026-01-25, yet the
synchronizer still creates a machine-managed placeholder at that date —
the `existing` query filters on `payment_type == ONE_TIME`, which the
claim omits. -/
theorem C7_counterexample :
    (c7Recurring ∈ c7DB.payments ∧
     c7Recurring.to_account_type = some "credit_card" ∧
     c7Recurring.to_account_id = some exCard.id ∧
     statusLive c7Recurring.status ∧
     c7Recurring.notes ≠ some (planned_note exCard.id) ∧
     c7Recurring.due_date = some ⟨2026, 1, 25⟩) ∧
    (⟨2026, 1, 25⟩ : Date) ∈
      (plan_entries (with_card_row c7DB exCard) exCard exToday).map (fun e => e.1) ∧
    ((sync_planned_payments c7DB 1 1 exToday).1.payments.countP
        (fun p => decide (p.notes = some (planned_note 1) ∧
          p.due_date = some ⟨2026, 1, 25⟩))) = 1 := by
  exact ⟨by decide, by decide, by decide⟩

/-- C7 (amended): during `syncPlannedPayments`, a desired due date occupied
by a user-entered ONE-TIME payment (targeting the card as destination,
status not cancelled/failed, notes not the reserved marker) never receives
a machine-managed placeholder: the user payment survives untouched, and no
live placeholder remains at that date afterwards (any stale one is
deleted).  The id-uniqueness and at-most-one-placeholder hypotheses are
the store's primary-key and synchronizer-maintained invariants. -/
theorem C7_user_payment_blocks (db : DB) (cid uid : Nat) (card : CreditCard)
    (today D : Date) (u : Payment)
    (hcard : get_card db cid uid = some card)
    (hdflt : ¬ card.default_payment_account_id.getD 0 = 0)
    (hD : D ∈ (plan_entries (with_card_row db card) card today).map (fun e => e.1))
    (hu : u ∈ db.payments)
    (huser : u.user_id = card.user_id)
    (hot : u.payment_type = PaymentType.one_time)
    (hto1 : u.to_account_type = some "credit_card")
    (hto2 : u.to_account_id = some card.id)
    (hdue : u.due_date = some D)
    (hlive : statusLive u.status)
    (hnotes : u.notes ≠ some (planned_note card.id))
    (hids : db.payments.Pairwise (fun a b => a.id ≠ b.id))
    (hone : (db.payments.filter
        (fun p => decide (IsPlaceholderAt card D p))).length ≤ 1) :
    (sync_planned_payments db cid uid today).2 = true ∧
    u ∈ (sync_planned_payments db cid uid today).1.payments ∧
    (∀ p ∈ (sync_planned_payments db cid uid today).1.payments,
      ¬ IsPlaceholderAt card D p) := by
  unfold sync_planned_payments
  rw [hcard]
  dsimp only
  rw [if_neg hdflt]
  unfold sync_planned_payments_card
  rw [if_neg hdflt]
  set entrs := plan_entries (with_card_row db card) card today with hent
  have hne : ¬ entrs = [] := by
    intro h
    rw [h] at hD
    simp at hD
  rw [if_neg hne]
  set dues := entrs.map (fun e => e.1) with hduesdef
  set E := sync_existing (with_card_row db card) card dues with hE
  have hexE : ∀ p ∈ E, p ∈ db.payments := by
    intro p hp
    rw [hE] at hp
    unfold sync_existing at hp
    exact List.mem_of_mem_filter hp
  have huE : u ∈ E := by
    rw [hE]
    unfold sync_existing
    refine List.mem_filter.mpr ⟨hu, ?_⟩
    rw [decide_eq_true_eq]
    refine ⟨huser, hot, hto1, hto2, ?_, hlive⟩
    have : dueAmong u.due_date dues := by
      rw [hdue]
      exact hD
    exact this
  have hbD : blockedDue E card.id D := ⟨u, huE, hnotes, hdue⟩
  have hLeq : E.filter (fun q => decide (q.notes = some (planned_note card.id) ∧
      q.due_date = some D)) =
      db.payments.filter (fun p => decide (IsPlaceholderAt card D p)) := by
    rw [hE]
    unfold sync_existing
    rw [List.filter_filter]
    apply List.filter_congr
    intro a _
    rw [Bool.eq_iff_iff]
    simp only [Bool.and_eq_true, decide_eq_true_eq]
    constructor
    · intro ⟨⟨hn, hd⟩, hus, hotp, ht1, ht2, _, hlv⟩
      exact ⟨hus, hotp, ht1, ht2, hd, hlv, hn⟩
    · intro ⟨hus, hotp, ht1, ht2, hd, hlv, hn⟩
      refine ⟨⟨hn, hd⟩, hus, hotp, ht1, ht2, ?_, hlv⟩
      have : dueAmong a.due_date dues := by
        rw [hd]
        exact hD
      exact this
  have hsub : ∀ p ∈ db.payments, IsPlaceholderAt card D p →
      planned_by_due E card.id D = some p := by
    intro p hp hplc
    have hpm2 : p ∈ E.filter (fun q => decide (q.notes = some (planned_note card.id) ∧
        q.due_date = some D)) := by
      rw [hLeq]
      exact List.mem_filter.mpr ⟨hp, by rw [decide_eq_true_eq]; exact hplc⟩
    have hsingle := singleton_of_length_le_one (l := E.filter
      (fun q => decide (q.notes = some (planned_note card.id) ∧ q.due_date = some D)))
      (by rw [hLeq]; exact hone) hpm2
    unfold planned_by_due
    rw [hsingle]
    rfl
  have hfold := reconcile_fold_blocks card E (desired_by_due entrs) db.payments D u
    hexE hids hu hnotes hbD hsub dues hD (with_card_row db card) hu (fun p hp _ => hp)
  exact ⟨rfl, hfold.1, hfold.2⟩

/-- C7 witness: in the concrete state with a one-time user payment and a
stale placeholder both at 2026-01-25, the sync succeeds, keeps the user
payment, and afterwards no live placeholder (marker-noted, pending) sits
at 2026-01-25 — the stale one was deleted and none was recreated. -/
theorem C7_user_payment_witness :
    (sync_planned_payments c7DB2 1 1 exToday).2 = true ∧
    c7u ∈ (sync_planned_payments c7DB2 1 1 exToday).1.payments ∧
    ((sync_planned_payments c7DB2 1 1 exToday).1.payments.countP
        (fun p => decide (IsPlaceholderAt exCard ⟨2026, 1, 25⟩ p))) = 0 := by
  have h := C7_user_payment_blocks c7DB2 1 1 exCard exToday ⟨2026, 1, 25⟩ c7u
    (by decide) (by decide) (by decide) (by decide) (by decide) (by decide)
    (by decide) (by decide) (by decide) (by decide) (by decide) (by decide)
    (by decide)
  exact ⟨h.1, h.2.1, by decide⟩

end OrgFin
